import Mathlib

/-!
Verification of the per-frame signal-fusion and event-detection state machine
of the Study-Focus monitor (src/app.py).

The shallow embedding covers:
* the per-frame monitoring loop body of `monitor_user` (src/app.py lines 179-277):
  EAR baseline calibration, EAR smoothing, dynamic thresholding, the eye-closure
  timer, the phone consecutive-frame counter, and the two cooldown gates;
* the session finalization block (src/app.py lines 279-290);
* the `start_monitoring` / `stop_monitoring` endpoints (src/app.py lines 317-347).

Timestamps and EAR values are modelled as rationals; Python float arithmetic on
these code paths is plain field arithmetic (comparisons, subtraction, mean,
median), so ℚ is a faithful carrier.  Each frame of the monitoring loop is a
`FrameInput`: the frame time (`time.time()`), the EAR of the chosen primary face
(`none` when no face landmarks were obtained, matching the source skipping the
whole eye block), and the boolean result of the YOLO phone filter.
-/

/-- Event types logged by the monitor (src/app.py lines 245, 268). -/
inductive EvType where
  | eye_closed
  | phone_detected
deriving DecidableEq

/-- An emitted event: type, frame time at which it was logged (the
`current_time` used by the cooldown gates), and its `duration` field. -/
structure EmEvent where
  etype : EvType
  time : ℚ
  duration : ℚ
deriving DecidableEq

/-- The mutable per-session state of the monitoring loop
(src/app.py lines 164-177). -/
structure MonState where
  baseline_vals : List ℚ
  frame_count : ℕ
  baseline_ear : Option ℚ
  ear_history : List ℚ
  eye_closed_start : Option ℚ
  last_eye_alert_time : ℚ
  phone_detected_frames : ℕ
  phone_event_start : Option ℚ
  last_phone_alert_time : ℚ
deriving DecidableEq

/-- One camera frame as seen by the loop body: its `time.time()` value, the EAR
of the chosen face (if any face was found), and whether the YOLO phone filter
returned a qualifying detection. -/
structure FrameInput where
  t : ℚ
  faceEar : Option ℚ
  phone : Bool
deriving DecidableEq

/-- BASELINE_FRAMES (src/app.py line 83). -/
def BASELINE_FRAMES : ℕ := 50

/-- EAR_SMOOTH_WINDOW (src/app.py line 84). -/
def EAR_SMOOTH_WINDOW : ℕ := 8

/-- EAR_DYNAMIC_MULTIPLIER = 0.7 (src/app.py line 85). -/
def EAR_DYNAMIC_MULTIPLIER : ℚ := 7/10

/-- EYE_ALERT_COOLDOWN = 5.0 (src/app.py line 86). -/
def EYE_ALERT_COOLDOWN : ℚ := 5

/-- MIN_PHONE_FRAMES (src/app.py line 78). -/
def MIN_PHONE_FRAMES : ℕ := 4

/-- PHONE_ALERT_COOLDOWN = 5.0 (src/app.py line 80). -/
def PHONE_ALERT_COOLDOWN : ℚ := 5

/-- The fallback baseline 0.25 (src/app.py line 223). -/
def FALLBACK_BASELINE : ℚ := 1/4

/-- The fallback dynamic threshold 0.22 (src/app.py line 235). -/
def FALLBACK_THRESHOLD : ℚ := 11/50

/-- Insert into a sorted list (ascending), used to model the sort inside
numpy's median. -/
def sortedInsert (x : ℚ) : List ℚ → List ℚ
  | [] => [x]
  | y :: ys => if x ≤ y then x :: y :: ys else y :: sortedInsert x ys

/-- Insertion sort, modelling the sort inside numpy's median. -/
def sortList (l : List ℚ) : List ℚ := l.foldr sortedInsert []

/-- np.median (src/app.py line 221): sort; middle element for odd length,
mean of the two middle elements for even length. -/
def median (l : List ℚ) : ℚ :=
  if (sortList l).length % 2 = 1 then
    (sortList l).getD ((sortList l).length / 2) 0
  else
    ((sortList l).getD ((sortList l).length / 2 - 1) 0
      + (sortList l).getD ((sortList l).length / 2) 0) / 2

/-- The baseline sample list after the current frame: the raw EAR is appended
only when it is strictly positive (src/app.py lines 216-217). -/
def calibVals (s : MonState) (ear : ℚ) : List ℚ :=
  if 0 < ear then s.baseline_vals ++ [ear] else s.baseline_vals

/-- The calibration block (src/app.py lines 214-225): runs only while
`frame_count < BASELINE_FRAMES`; appends valid samples, increments the counter,
and on the frame where the counter reaches `BASELINE_FRAMES` sets the baseline
to the median of the collected samples, or to `FALLBACK_BASELINE` when no valid
sample was collected. -/
def calibStep (s : MonState) (ear : ℚ) : MonState :=
  if s.frame_count < BASELINE_FRAMES then
    { s with
      baseline_vals := calibVals s ear,
      frame_count := s.frame_count + 1,
      baseline_ear :=
        if s.frame_count + 1 = BASELINE_FRAMES then
          some (if calibVals s ear = [] then FALLBACK_BASELINE
                else median (calibVals s ear))
        else s.baseline_ear }
  else s

/-- The smoothing window update (src/app.py lines 227-229): append the raw EAR,
then pop the oldest entry if the window exceeds `EAR_SMOOTH_WINDOW`. -/
def smoothUpdate (hist : List ℚ) (ear : ℚ) : List ℚ :=
  if EAR_SMOOTH_WINDOW < (hist ++ [ear]).length then (hist ++ [ear]).drop 1
  else hist ++ [ear]

/-- np.mean (src/app.py line 230). -/
def listMean (l : List ℚ) : ℚ := l.sum / (l.length : ℚ)

/-- The dynamic threshold (src/app.py lines 231-235).  The source tests Python
truthiness of `baseline_ear`, so a baseline equal to 0.0 would also fall back
to the fixed threshold. -/
def dynamicThreshold : Option ℚ → ℚ
  | some b => if b ≠ 0 then b * EAR_DYNAMIC_MULTIPLIER else FALLBACK_THRESHOLD
  | none => FALLBACK_THRESHOLD

/-- The smoothed EAR computed on a face frame (src/app.py line 230), as a
function of the pre-frame state and the raw EAR. -/
def smoothOf (s : MonState) (ear : ℚ) : ℚ := listMean (smoothUpdate s.ear_history ear)

/-- The dynamic threshold in force on a face frame: the calibration block runs
before line 231, so the threshold uses the possibly-just-set baseline. -/
def thresholdOf (s : MonState) (ear : ℚ) : ℚ :=
  dynamicThreshold (calibStep s ear).baseline_ear

/-- The closure predicate of src/app.py line 237:
`smooth_ear < dynamic_threshold and smooth_ear > 0`. -/
def eyePredB (s : MonState) (ear : ℚ) : Bool :=
  decide (smoothOf s ear < thresholdOf s ear) && decide (0 < smoothOf s ear)

/-- The state after the calibration and smoothing updates of a face frame,
before the closure branch runs. -/
def eyeBase (s : MonState) (ear : ℚ) : MonState :=
  { calibStep s ear with ear_history := smoothUpdate s.ear_history ear }

/-- The face/eye section of the loop body (src/app.py lines 196-251).  With no
face (`none`) the whole section is skipped and the state is untouched; note in
particular that the eye-closure timer is not reset on a no-face frame. -/
def eyeUpdate (u : ℚ) (s : MonState) (t : ℚ) : Option ℚ → MonState × List EmEvent
  | none => (s, [])
  | some ear =>
    if eyePredB s ear then
      match s.eye_closed_start with
      | none => ({ eyeBase s ear with eye_closed_start := some t }, [])
      | some st =>
        if u ≤ t - st then
          if EYE_ALERT_COOLDOWN ≤ t - s.last_eye_alert_time then
            ({ eyeBase s ear with last_eye_alert_time := t },
             [{ etype := EvType.eye_closed, time := t, duration := t - st }])
          else (eyeBase s ear, [])
        else (eyeBase s ear, [])
    else ({ eyeBase s ear with eye_closed_start := none }, [])

/-- The negative-frame reset (src/app.py lines 257-259). -/
def phoneReset (s : MonState) : MonState :=
  { s with phone_detected_frames := 0, phone_event_start := none }

/-- The cooldown-gated emission (src/app.py lines 264-273): duration is taken
from the pre-reset `phone_event_start`; on emission both the gate and
`phone_event_start` are set to the current time. -/
def phoneEmit (s : MonState) (t : ℚ) : MonState × List EmEvent :=
  if PHONE_ALERT_COOLDOWN ≤ t - s.last_phone_alert_time then
    ({ s with last_phone_alert_time := t, phone_event_start := some t },
     [{ etype := EvType.phone_detected, time := t,
        duration := t - s.phone_event_start.getD t }])
  else (s, [])

/-- The confirmation block (src/app.py lines 261-273): once the counter has
reached `MIN_PHONE_FRAMES`, set `phone_event_start` if unset, then run the
cooldown gate. -/
def phoneConfirm (s : MonState) (t : ℚ) : MonState × List EmEvent :=
  if MIN_PHONE_FRAMES ≤ s.phone_detected_frames then
    phoneEmit { s with phone_event_start := some (s.phone_event_start.getD t) } t
  else (s, [])

/-- The phone section of the loop body (src/app.py lines 254-273). -/
def phoneUpdate (s : MonState) (t : ℚ) (phone : Bool) : MonState × List EmEvent :=
  phoneConfirm
    (if phone then { s with phone_detected_frames := s.phone_detected_frames + 1 }
     else phoneReset s) t

/-- One whole iteration of the monitoring loop body on a successfully read
frame (src/app.py lines 186-277): the eye section runs first, then the phone
section; each can emit at most one event. -/
def step (u : ℚ) (s : MonState) (i : FrameInput) : MonState × List EmEvent :=
  ((phoneUpdate (eyeUpdate u s i.t i.faceEar).1 i.t i.phone).1,
   (eyeUpdate u s i.t i.faceEar).2
     ++ (phoneUpdate (eyeUpdate u s i.t i.faceEar).1 i.t i.phone).2)

/-- Run the loop body over a list of frames, collecting emitted events in
order. -/
def run (u : ℚ) (s : MonState) : List FrameInput → MonState × List EmEvent
  | [] => (s, [])
  | i :: rest =>
    ((run u (step u s i).1 rest).1,
     (step u s i).2 ++ (run u (step u s i).1 rest).2)

/-- The loop-local state at thread start (src/app.py lines 164-177): empty
sample list and window, no baseline, both timers unset, both cooldown gates
initialized to 0. -/
def initState : MonState :=
  { baseline_vals := []
    frame_count := 0
    baseline_ear := none
    ear_history := []
    eye_closed_start := none
    last_eye_alert_time := 0
    phone_detected_frames := 0
    phone_event_start := none
    last_phone_alert_time := 0 }

/-- Whether an event is an eye_closed event. -/
def isEyeEvent (e : EmEvent) : Bool :=
  match e.etype with
  | EvType.eye_closed => true
  | EvType.phone_detected => false

/-- Whether an event is a phone_detected event. -/
def isPhoneEvent (e : EmEvent) : Bool :=
  match e.etype with
  | EvType.eye_closed => false
  | EvType.phone_detected => true

/-- The eye_closed events of an event list. -/
def eyeEvents (l : List EmEvent) : List EmEvent := l.filter isEyeEvent

/-- The phone_detected events of an event list. -/
def phoneEvents (l : List EmEvent) : List EmEvent := l.filter isPhoneEvent

/-- A frame on which the smoothed EAR exists but fails the closure predicate
(the `else` of src/app.py line 250). -/
def eyeFails (s : MonState) (i : FrameInput) : Bool :=
  match i.faceEar with
  | none => false
  | some ear => !(eyePredB s ear)

/-- All frame times of a list lie within a window shorter than `u`. -/
def spanLt (u : ℚ) (L : List FrameInput) : Prop :=
  ∀ a ∈ L, ∀ b ∈ L, a.t - b.t < u

instance (u : ℚ) (L : List FrameInput) : Decidable (spanLt u L) := by
  unfold spanLt; infer_instance

/-- A block pattern for claim C1: each block is a run of frames `C` followed by
one frame `f` whose smoothed EAR fails the closure predicate, with all the
block's frame times inside a window shorter than the closure duration `u`. -/
def BlocksOK (u : ℚ) : MonState → List (List FrameInput × FrameInput) → Prop
  | _, [] => True
  | s, (C, f) :: rest =>
      spanLt u (C ++ [f]) ∧ eyeFails (run u s C).1 f = true ∧
      BlocksOK u (run u s (C ++ [f])).1 rest

/-- The frame sequence described by a block list. -/
def flattenBlocks (bs : List (List FrameInput × FrameInput)) : List FrameInput :=
  (bs.map (fun p => p.1 ++ [p.2])).flatten

/-- The phone pattern of claim C2: k repetitions of three qualifying frames
followed by one non-qualifying frame. -/
def patRepeat : ℕ → List Bool
  | 0 => []
  | k + 1 => true :: true :: true :: false :: patRepeat k

/-- The phone-detector fields of the state. -/
def phoneProj (s : MonState) : ℕ × Option ℚ × ℚ :=
  (s.phone_detected_frames, s.phone_event_start, s.last_phone_alert_time)

/-- The eye-detector and calibration fields of the state. -/
def eyeProj (s : MonState) : List ℚ × ℕ × Option ℚ × List ℚ × Option ℚ × ℚ :=
  (s.baseline_vals, s.frame_count, s.baseline_ear, s.ear_history,
   s.eye_closed_start, s.last_eye_alert_time)

/-- The calibration fields of the state. -/
def calibProj (s : MonState) : List ℚ × ℕ × Option ℚ :=
  (s.baseline_vals, s.frame_count, s.baseline_ear)

/-- A session row as finalized by the monitor (src/app.py lines 34-42). -/
structure SessionRec where
  start_time : ℚ
  end_time : Option ℚ
  total_duration : ℤ
  focus_duration : ℤ
  distraction_duration : ℤ
  is_active : Bool
deriving DecidableEq

/-- Python int() applied to a rational: truncation toward zero. -/
def ratTrunc (q : ℚ) : ℤ := Int.tdiv q.num q.den

/-- The session finalization block (src/app.py lines 279-290): guarded by
`is_active`, it sets the end time, flips the flag, and computes the three
duration fields. -/
def finalizeSession (s : SessionRec) (now : ℚ) (events : List EmEvent) : SessionRec :=
  if s.is_active then
    { s with
      end_time := some now,
      is_active := false,
      total_duration := ratTrunc (now - s.start_time),
      distraction_duration := ratTrunc (events.map EmEvent.duration).sum,
      focus_duration :=
        max 0 (ratTrunc (now - s.start_time)
          - ratTrunc (events.map EmEvent.duration).sum) }
  else s

/-- The global control state read and written by the start/stop endpoints
(src/app.py lines 69-74). -/
structure ApiState where
  monitoring_active : Bool
  current_user : Option ℕ
  camera : Option Unit
  worker_running : Bool
deriving DecidableEq

/-- Result of the start_monitoring endpoint. -/
inductive StartResult where
  | ok
  | errNoUser
  | errAlreadyActive
  | errCamera
deriving DecidableEq

/-- start_monitoring (src/app.py lines 317-335).  `cameraOpens` models whether
`cv2.VideoCapture(0).isOpened()` succeeds. -/
def startMonitoring (st : ApiState) (cameraOpens : Bool) : ApiState × StartResult :=
  if st.current_user = none then (st, StartResult.errNoUser)
  else if st.monitoring_active then (st, StartResult.errAlreadyActive)
  else if !cameraOpens then (st, StartResult.errCamera)
  else
    ({ st with
        camera := some ()
        monitoring_active := true
        worker_running := true },
     StartResult.ok)

/-- stop_monitoring (src/app.py lines 337-347): unconditionally clears the
active flag, releases the camera, and reports success. -/
def stopMonitoring (st : ApiState) : ApiState × Bool :=
  ({ st with monitoring_active := false, camera := none }, true)

/-! ### Basic structural lemmas about the step function -/

lemma phoneProj_calibStep (s : MonState) (ear : ℚ) :
    phoneProj (calibStep s ear) = phoneProj s := by
  unfold calibStep
  split_ifs <;> rfl

lemma phoneProj_eyeBase (s : MonState) (ear : ℚ) :
    phoneProj (eyeBase s ear) = phoneProj s :=
  phoneProj_calibStep s ear

lemma phoneProj_eyeUpdate (u : ℚ) (s : MonState) (t : ℚ) (f : Option ℚ) :
    phoneProj (eyeUpdate u s t f).1 = phoneProj s := by
  cases f with
  | none => rfl
  | some ear =>
    simp only [eyeUpdate]
    split
    · split
      · exact phoneProj_eyeBase s ear
      · split
        · split
          · exact phoneProj_eyeBase s ear
          · exact phoneProj_eyeBase s ear
        · exact phoneProj_eyeBase s ear
    · exact phoneProj_eyeBase s ear

lemma phoneUpdate_last_eye (s : MonState) (t : ℚ) (p : Bool) :
    (phoneUpdate s t p).1.last_eye_alert_time = s.last_eye_alert_time := by
  cases p <;> simp only [phoneUpdate, phoneConfirm, phoneEmit, phoneReset] <;>
    split_ifs <;> rfl

lemma phoneUpdate_eye_start (s : MonState) (t : ℚ) (p : Bool) :
    (phoneUpdate s t p).1.eye_closed_start = s.eye_closed_start := by
  cases p <;> simp only [phoneUpdate, phoneConfirm, phoneEmit, phoneReset] <;>
    split_ifs <;> rfl

lemma phoneUpdate_baseline_ear (s : MonState) (t : ℚ) (p : Bool) :
    (phoneUpdate s t p).1.baseline_ear = s.baseline_ear := by
  cases p <;> simp only [phoneUpdate, phoneConfirm, phoneEmit, phoneReset] <;>
    split_ifs <;> rfl

lemma phoneUpdate_frame_count (s : MonState) (t : ℚ) (p : Bool) :
    (phoneUpdate s t p).1.frame_count = s.frame_count := by
  cases p <;> simp only [phoneUpdate, phoneConfirm, phoneEmit, phoneReset] <;>
    split_ifs <;> rfl

lemma phoneUpdate_baseline_vals (s : MonState) (t : ℚ) (p : Bool) :
    (phoneUpdate s t p).1.baseline_vals = s.baseline_vals := by
  cases p <;> simp only [phoneUpdate, phoneConfirm, phoneEmit, phoneReset] <;>
    split_ifs <;> rfl

lemma phoneUpdate_ear_history (s : MonState) (t : ℚ) (p : Bool) :
    (phoneUpdate s t p).1.ear_history = s.ear_history := by
  cases p <;> simp only [phoneUpdate, phoneConfirm, phoneEmit, phoneReset] <;>
    split_ifs <;> rfl

lemma eyeProj_phoneUpdate (s : MonState) (t : ℚ) (p : Bool) :
    eyeProj (phoneUpdate s t p).1 = eyeProj s := by
  simp only [eyeProj, phoneUpdate_last_eye, phoneUpdate_eye_start,
    phoneUpdate_baseline_ear, phoneUpdate_frame_count, phoneUpdate_baseline_vals,
    phoneUpdate_ear_history]

lemma eyeUpdate_events_typed (u : ℚ) (s : MonState) (t : ℚ) (f : Option ℚ) :
    eyeEvents (eyeUpdate u s t f).2 = (eyeUpdate u s t f).2 ∧
    phoneEvents (eyeUpdate u s t f).2 = [] := by
  cases f with
  | none => exact ⟨rfl, rfl⟩
  | some ear =>
    simp only [eyeUpdate]
    split
    · split
      · exact ⟨rfl, rfl⟩
      · split
        · split
          · simp [eyeEvents, phoneEvents, isEyeEvent, isPhoneEvent]
          · exact ⟨rfl, rfl⟩
        · exact ⟨rfl, rfl⟩
    · exact ⟨rfl, rfl⟩

lemma phoneUpdate_events_typed (s : MonState) (t : ℚ) (p : Bool) :
    phoneEvents (phoneUpdate s t p).2 = (phoneUpdate s t p).2 ∧
    eyeEvents (phoneUpdate s t p).2 = [] := by
  cases p <;> simp only [phoneUpdate, phoneConfirm, phoneEmit, phoneReset] <;>
    split_ifs <;> simp [eyeEvents, phoneEvents, isEyeEvent, isPhoneEvent]

lemma step_state (u : ℚ) (s : MonState) (i : FrameInput) :
    (step u s i).1 = (phoneUpdate (eyeUpdate u s i.t i.faceEar).1 i.t i.phone).1 := rfl

lemma step_events (u : ℚ) (s : MonState) (i : FrameInput) :
    (step u s i).2 = (eyeUpdate u s i.t i.faceEar).2
      ++ (phoneUpdate (eyeUpdate u s i.t i.faceEar).1 i.t i.phone).2 := rfl

lemma eyeEvents_step (u : ℚ) (s : MonState) (i : FrameInput) :
    eyeEvents (step u s i).2 = (eyeUpdate u s i.t i.faceEar).2 := by
  rw [step_events, eyeEvents, List.filter_append]
  rw [show List.filter isEyeEvent (eyeUpdate u s i.t i.faceEar).2
        = eyeEvents (eyeUpdate u s i.t i.faceEar).2 from rfl,
      show List.filter isEyeEvent (phoneUpdate (eyeUpdate u s i.t i.faceEar).1 i.t i.phone).2
        = eyeEvents (phoneUpdate (eyeUpdate u s i.t i.faceEar).1 i.t i.phone).2 from rfl]
  rw [(eyeUpdate_events_typed u s i.t i.faceEar).1,
      (phoneUpdate_events_typed (eyeUpdate u s i.t i.faceEar).1 i.t i.phone).2,
      List.append_nil]

lemma phoneEvents_step (u : ℚ) (s : MonState) (i : FrameInput) :
    phoneEvents (step u s i).2
      = (phoneUpdate (eyeUpdate u s i.t i.faceEar).1 i.t i.phone).2 := by
  rw [step_events, phoneEvents, List.filter_append]
  rw [show List.filter isPhoneEvent (eyeUpdate u s i.t i.faceEar).2
        = phoneEvents (eyeUpdate u s i.t i.faceEar).2 from rfl,
      show List.filter isPhoneEvent (phoneUpdate (eyeUpdate u s i.t i.faceEar).1 i.t i.phone).2
        = phoneEvents (phoneUpdate (eyeUpdate u s i.t i.faceEar).1 i.t i.phone).2 from rfl]
  rw [(eyeUpdate_events_typed u s i.t i.faceEar).2,
      (phoneUpdate_events_typed (eyeUpdate u s i.t i.faceEar).1 i.t i.phone).1,
      List.nil_append]

lemma run_append (u : ℚ) (s : MonState) (L M : List FrameInput) :
    run u s (L ++ M)
      = ((run u (run u s L).1 M).1, (run u s L).2 ++ (run u (run u s L).1 M).2) := by
  induction L generalizing s with
  | nil => simp [run]
  | cons i rest ih =>
    simp only [List.cons_append, run]
    rw [show rest.append M = rest ++ M from rfl, ih]
    simp [List.append_assoc]

/-! ### Branch characterizations of the eye section -/

lemma calibStep_eye_start (s : MonState) (ear : ℚ) :
    (calibStep s ear).eye_closed_start = s.eye_closed_start := by
  unfold calibStep
  split_ifs <;> rfl

lemma calibStep_last_eye (s : MonState) (ear : ℚ) :
    (calibStep s ear).last_eye_alert_time = s.last_eye_alert_time := by
  unfold calibStep
  split_ifs <;> rfl

lemma eyeBase_eye_start (s : MonState) (ear : ℚ) :
    (eyeBase s ear).eye_closed_start = s.eye_closed_start :=
  calibStep_eye_start s ear

lemma eyeBase_last_eye (s : MonState) (ear : ℚ) :
    (eyeBase s ear).last_eye_alert_time = s.last_eye_alert_time :=
  calibStep_last_eye s ear

lemma eyeUpdate_none_eq (u : ℚ) (s : MonState) (t : ℚ) :
    eyeUpdate u s t none = (s, []) := rfl

lemma eyeUpdate_fail (u : ℚ) (s : MonState) (t ear : ℚ)
    (hp : eyePredB s ear = false) :
    eyeUpdate u s t (some ear) = ({ eyeBase s ear with eye_closed_start := none }, []) := by
  simp [eyeUpdate, hp]

lemma eyeUpdate_setTimer (u : ℚ) (s : MonState) (t ear : ℚ)
    (hp : eyePredB s ear = true) (h0 : s.eye_closed_start = none) :
    eyeUpdate u s t (some ear) = ({ eyeBase s ear with eye_closed_start := some t }, []) := by
  simp [eyeUpdate, hp, h0]

lemma eyeUpdate_short (u : ℚ) (s : MonState) (t ear st : ℚ)
    (hp : eyePredB s ear = true) (h0 : s.eye_closed_start = some st)
    (hshort : ¬ u ≤ t - st) :
    eyeUpdate u s t (some ear) = (eyeBase s ear, []) := by
  simp [eyeUpdate, hp, h0, hshort]

lemma eyeUpdate_blocked (u : ℚ) (s : MonState) (t ear st : ℚ)
    (hp : eyePredB s ear = true) (h0 : s.eye_closed_start = some st)
    (hlong : u ≤ t - st)
    (hcool : ¬ EYE_ALERT_COOLDOWN ≤ t - s.last_eye_alert_time) :
    eyeUpdate u s t (some ear) = (eyeBase s ear, []) := by
  simp [eyeUpdate, hp, h0, hlong, hcool]

lemma eyeUpdate_emit (u : ℚ) (s : MonState) (t ear st : ℚ)
    (hp : eyePredB s ear = true) (h0 : s.eye_closed_start = some st)
    (hlong : u ≤ t - st)
    (hcool : EYE_ALERT_COOLDOWN ≤ t - s.last_eye_alert_time) :
    eyeUpdate u s t (some ear)
      = ({ eyeBase s ear with last_eye_alert_time := t },
         [{ etype := EvType.eye_closed, time := t, duration := t - st }]) := by
  simp [eyeUpdate, hp, h0, hlong, hcool]

/-- Either the eye section emits nothing and leaves its cooldown gate alone, or
it emits exactly one eye_closed event at the frame time, with the gate moved to
the frame time, the closure-start timer untouched, and the cooldown satisfied
against the old gate. -/
lemma eyeUpdate_last_cases (u : ℚ) (s : MonState) (t : ℚ) (f : Option ℚ) :
    ((eyeUpdate u s t f).2 = [] ∧
      (eyeUpdate u s t f).1.last_eye_alert_time = s.last_eye_alert_time) ∨
    (∃ st, s.eye_closed_start = some st ∧ u ≤ t - st ∧
      EYE_ALERT_COOLDOWN ≤ t - s.last_eye_alert_time ∧
      (eyeUpdate u s t f).2
        = [{ etype := EvType.eye_closed, time := t, duration := t - st }] ∧
      (eyeUpdate u s t f).1.last_eye_alert_time = t ∧
      (eyeUpdate u s t f).1.eye_closed_start = some st) := by
  cases f with
  | none => exact Or.inl ⟨rfl, rfl⟩
  | some ear =>
    cases hp : eyePredB s ear with
    | false =>
      rw [eyeUpdate_fail u s t ear hp]
      exact Or.inl ⟨rfl, eyeBase_last_eye s ear⟩
    | true =>
      cases h0 : s.eye_closed_start with
      | none =>
        rw [eyeUpdate_setTimer u s t ear hp h0]
        exact Or.inl ⟨rfl, eyeBase_last_eye s ear⟩
      | some st =>
        by_cases hlong : u ≤ t - st
        · by_cases hcool : EYE_ALERT_COOLDOWN ≤ t - s.last_eye_alert_time
          · rw [eyeUpdate_emit u s t ear st hp h0 hlong hcool]
            exact Or.inr ⟨st, rfl, hlong, hcool, rfl, rfl,
              (eyeBase_eye_start s ear).trans h0⟩
          · rw [eyeUpdate_blocked u s t ear st hp h0 hlong hcool]
            exact Or.inl ⟨rfl, eyeBase_last_eye s ear⟩
        · rw [eyeUpdate_short u s t ear st hp h0 hlong]
          exact Or.inl ⟨rfl, eyeBase_last_eye s ear⟩

/-! ### Branch characterizations of the phone section -/

lemma phoneUpdate_neg (s : MonState) (t : ℚ) :
    phoneUpdate s t false = (phoneReset s, []) := by
  simp [phoneUpdate, phoneConfirm, phoneReset, MIN_PHONE_FRAMES]

lemma phoneUpdate_pos_short (s : MonState) (t : ℚ)
    (h : s.phone_detected_frames + 1 < MIN_PHONE_FRAMES) :
    phoneUpdate s t true
      = ({ s with phone_detected_frames := s.phone_detected_frames + 1 }, []) := by
  have h2 : ¬ MIN_PHONE_FRAMES ≤ s.phone_detected_frames + 1 := by omega
  simp [phoneUpdate, phoneConfirm, h2]

lemma phoneUpdate_pos_blocked (s : MonState) (t : ℚ)
    (h : MIN_PHONE_FRAMES ≤ s.phone_detected_frames + 1)
    (hcool : ¬ PHONE_ALERT_COOLDOWN ≤ t - s.last_phone_alert_time) :
    phoneUpdate s t true
      = ({ s with
            phone_detected_frames := s.phone_detected_frames + 1
            phone_event_start := some (s.phone_event_start.getD t) }, []) := by
  simp [phoneUpdate, phoneConfirm, phoneEmit, h, hcool]

lemma phoneUpdate_pos_emit (s : MonState) (t : ℚ)
    (h : MIN_PHONE_FRAMES ≤ s.phone_detected_frames + 1)
    (hcool : PHONE_ALERT_COOLDOWN ≤ t - s.last_phone_alert_time) :
    phoneUpdate s t true
      = ({ s with
            phone_detected_frames := s.phone_detected_frames + 1
            phone_event_start := some t
            last_phone_alert_time := t },
         [{ etype := EvType.phone_detected, time := t,
            duration := t - s.phone_event_start.getD t }]) := by
  simp [phoneUpdate, phoneConfirm, phoneEmit, h, hcool]

/-- Either the phone section emits nothing and leaves its cooldown gate alone,
or it emits exactly one phone_detected event at the frame time, with the gate
moved to the frame time and the cooldown satisfied against the old gate. -/
lemma phoneUpdate_last_cases (s : MonState) (t : ℚ) (p : Bool) :
    ((phoneUpdate s t p).2 = [] ∧
      (phoneUpdate s t p).1.last_phone_alert_time = s.last_phone_alert_time) ∨
    (PHONE_ALERT_COOLDOWN ≤ t - s.last_phone_alert_time ∧ ∃ d,
      (phoneUpdate s t p).2
        = [{ etype := EvType.phone_detected, time := t, duration := d }] ∧
      (phoneUpdate s t p).1.last_phone_alert_time = t) := by
  cases p with
  | false =>
    rw [phoneUpdate_neg]
    exact Or.inl ⟨rfl, rfl⟩
  | true =>
    by_cases hge : MIN_PHONE_FRAMES ≤ s.phone_detected_frames + 1
    · by_cases hcool : PHONE_ALERT_COOLDOWN ≤ t - s.last_phone_alert_time
      · rw [phoneUpdate_pos_emit s t hge hcool]
        exact Or.inr ⟨hcool, _, rfl, rfl⟩
      · rw [phoneUpdate_pos_blocked s t hge hcool]
        exact Or.inl ⟨rfl, rfl⟩
    · rw [phoneUpdate_pos_short s t (by omega)]
      exact Or.inl ⟨rfl, rfl⟩

/-! ### The cooldown-gate invariant -/

/-- Successive events in the list are at least c apart (hence, since the gap
relation is transitive-compatible, any two distinct events of the list are). -/
def gapOK (c : ℚ) (evs : List EmEvent) : Prop :=
  List.Pairwise (fun a b => a.time + c ≤ b.time) evs

/-- Invariant tying a cooldown gate to the events it has emitted: events are
pairwise at least c apart and none is later than the gate value. -/
def gateInv (c last : ℚ) (evs : List EmEvent) : Prop :=
  gapOK c evs ∧ ∀ e ∈ evs, e.time ≤ last

lemma gateInv_append_event {c last : ℚ} {evs : List EmEvent} (e : EmEvent)
    (h : gateInv c last evs) (hc : 0 ≤ c) (hcool : c ≤ e.time - last) :
    gateInv c e.time (evs ++ [e]) := by
  constructor
  · rw [gapOK, List.pairwise_append]
    refine ⟨h.1, List.pairwise_singleton _ _, ?_⟩
    intro a ha b hb
    rw [List.mem_singleton] at hb
    subst hb
    have := h.2 a ha
    linarith
  · intro x hx
    rw [List.mem_append, List.mem_singleton] at hx
    rcases hx with hx | rfl
    · have := h.2 x hx
      linarith
    · exact le_refl _

lemma eyeEvents_append (l1 l2 : List EmEvent) :
    eyeEvents (l1 ++ l2) = eyeEvents l1 ++ eyeEvents l2 :=
  List.filter_append l1 l2

lemma phoneEvents_append (l1 l2 : List EmEvent) :
    phoneEvents (l1 ++ l2) = phoneEvents l1 ++ phoneEvents l2 :=
  List.filter_append l1 l2

lemma step_last_eye (u : ℚ) (s : MonState) (i : FrameInput) :
    (step u s i).1.last_eye_alert_time
      = (eyeUpdate u s i.t i.faceEar).1.last_eye_alert_time := by
  rw [step_state, phoneUpdate_last_eye]

lemma step_last_phone (u : ℚ) (s : MonState) (i : FrameInput) :
    (step u s i).1.last_phone_alert_time
      = (phoneUpdate (eyeUpdate u s i.t i.faceEar).1 i.t i.phone).1.last_phone_alert_time :=
  rfl

lemma eye_gateInv_step (u : ℚ) (s : MonState) (i : FrameInput) (evs : List EmEvent)
    (h : gateInv EYE_ALERT_COOLDOWN s.last_eye_alert_time (eyeEvents evs)) :
    gateInv EYE_ALERT_COOLDOWN (step u s i).1.last_eye_alert_time
      (eyeEvents (evs ++ (step u s i).2)) := by
  rw [eyeEvents_append, eyeEvents_step, step_last_eye]
  rcases eyeUpdate_last_cases u s i.t i.faceEar with ⟨hev, hlast⟩ | ⟨st, _, _, hcool, hev, hlast, _⟩
  · rw [hev, hlast, List.append_nil]
    exact h
  · rw [hev, hlast]
    exact gateInv_append_event _ h (by norm_num [EYE_ALERT_COOLDOWN]) (by simpa using hcool)

lemma phone_gateInv_step (u : ℚ) (s : MonState) (i : FrameInput) (evs : List EmEvent)
    (h : gateInv PHONE_ALERT_COOLDOWN s.last_phone_alert_time (phoneEvents evs)) :
    gateInv PHONE_ALERT_COOLDOWN (step u s i).1.last_phone_alert_time
      (phoneEvents (evs ++ (step u s i).2)) := by
  rw [phoneEvents_append, phoneEvents_step, step_last_phone]
  have hmid : (eyeUpdate u s i.t i.faceEar).1.last_phone_alert_time
      = s.last_phone_alert_time := by
    have := phoneProj_eyeUpdate u s i.t i.faceEar
    simp only [phoneProj, Prod.mk.injEq] at this
    exact this.2.2
  rcases phoneUpdate_last_cases (eyeUpdate u s i.t i.faceEar).1 i.t i.phone with
    ⟨hev, hlast⟩ | ⟨hcool, d, hev, hlast⟩
  · rw [hev, hlast, List.append_nil, hmid]
    exact h
  · rw [hev, hlast]
    rw [hmid] at hcool
    exact gateInv_append_event _ h (by norm_num [PHONE_ALERT_COOLDOWN]) (by simpa using hcool)

lemma eye_gateInv_run (u : ℚ) (L : List FrameInput) (s : MonState) (evs : List EmEvent)
    (h : gateInv EYE_ALERT_COOLDOWN s.last_eye_alert_time (eyeEvents evs)) :
    gateInv EYE_ALERT_COOLDOWN (run u s L).1.last_eye_alert_time
      (eyeEvents (evs ++ (run u s L).2)) := by
  induction L generalizing s evs with
  | nil => simpa [run] using h
  | cons i rest ih =>
    have h1 := eye_gateInv_step u s i evs h
    have h2 := ih (step u s i).1 (evs ++ (step u s i).2) h1
    simpa [run, List.append_assoc] using h2

lemma phone_gateInv_run (u : ℚ) (L : List FrameInput) (s : MonState) (evs : List EmEvent)
    (h : gateInv PHONE_ALERT_COOLDOWN s.last_phone_alert_time (phoneEvents evs)) :
    gateInv PHONE_ALERT_COOLDOWN (run u s L).1.last_phone_alert_time
      (phoneEvents (evs ++ (run u s L).2)) := by
  induction L generalizing s evs with
  | nil => simpa [run] using h
  | cons i rest ih =>
    have h1 := phone_gateInv_step u s i evs h
    have h2 := ih (step u s i).1 (evs ++ (step u s i).2) h1
    simpa [run, List.append_assoc] using h2

/-! ### Independence of the two detectors -/

lemma phoneProj_fields {s1 s2 : MonState} (h : phoneProj s1 = phoneProj s2) :
    s1.phone_detected_frames = s2.phone_detected_frames ∧
    s1.phone_event_start = s2.phone_event_start ∧
    s1.last_phone_alert_time = s2.last_phone_alert_time := by
  simpa [phoneProj, Prod.ext_iff] using h

lemma eyeProj_fields {s1 s2 : MonState} (h : eyeProj s1 = eyeProj s2) :
    s1.baseline_vals = s2.baseline_vals ∧
    s1.frame_count = s2.frame_count ∧
    s1.baseline_ear = s2.baseline_ear ∧
    s1.ear_history = s2.ear_history ∧
    s1.eye_closed_start = s2.eye_closed_start ∧
    s1.last_eye_alert_time = s2.last_eye_alert_time := by
  simpa [eyeProj, Prod.ext_iff] using h

lemma phoneUpdate_congr {s1 s2 : MonState} (h : phoneProj s1 = phoneProj s2)
    (t : ℚ) (p : Bool) :
    phoneProj (phoneUpdate s1 t p).1 = phoneProj (phoneUpdate s2 t p).1 ∧
    (phoneUpdate s1 t p).2 = (phoneUpdate s2 t p).2 := by
  obtain ⟨h1, h2, h3⟩ := phoneProj_fields h
  cases p with
  | false =>
    rw [phoneUpdate_neg, phoneUpdate_neg]
    refine ⟨?_, rfl⟩
    simp only [phoneProj, phoneReset, Prod.mk.injEq]
    exact ⟨trivial, trivial, h3⟩
  | true =>
    by_cases hge : MIN_PHONE_FRAMES ≤ s1.phone_detected_frames + 1
    · have hge2 : MIN_PHONE_FRAMES ≤ s2.phone_detected_frames + 1 := by omega
      by_cases hcool : PHONE_ALERT_COOLDOWN ≤ t - s1.last_phone_alert_time
      · have hcool2 : PHONE_ALERT_COOLDOWN ≤ t - s2.last_phone_alert_time := by
          rw [← h3]; exact hcool
        rw [phoneUpdate_pos_emit s1 t hge hcool, phoneUpdate_pos_emit s2 t hge2 hcool2]
        exact ⟨by simp [phoneProj, h1], by simp [h2]⟩
      · have hcool2 : ¬ PHONE_ALERT_COOLDOWN ≤ t - s2.last_phone_alert_time := by
          rw [← h3]; exact hcool
        rw [phoneUpdate_pos_blocked s1 t hge hcool, phoneUpdate_pos_blocked s2 t hge2 hcool2]
        refine ⟨?_, rfl⟩
        simp only [phoneProj, Prod.mk.injEq]
        exact ⟨by rw [h1], by rw [h2], h3⟩
    · have hge2 : ¬ MIN_PHONE_FRAMES ≤ s2.phone_detected_frames + 1 := by omega
      rw [phoneUpdate_pos_short s1 t (by omega), phoneUpdate_pos_short s2 t (by omega)]
      refine ⟨?_, rfl⟩
      simp only [phoneProj, Prod.mk.injEq]
      exact ⟨by rw [h1], h2, h3⟩

lemma calibVals_congr {s1 s2 : MonState} (h : s1.baseline_vals = s2.baseline_vals)
    (ear : ℚ) : calibVals s1 ear = calibVals s2 ear := by
  simp only [calibVals, h]

lemma calibStep_congr {s1 s2 : MonState} (h : eyeProj s1 = eyeProj s2) (ear : ℚ) :
    (calibStep s1 ear).baseline_vals = (calibStep s2 ear).baseline_vals ∧
    (calibStep s1 ear).frame_count = (calibStep s2 ear).frame_count ∧
    (calibStep s1 ear).baseline_ear = (calibStep s2 ear).baseline_ear := by
  obtain ⟨hv, hc, hb, hh, he, hl⟩ := eyeProj_fields h
  have hcv := calibVals_congr hv ear
  unfold calibStep
  rw [hc, hcv]
  split_ifs <;> simp [hcv, hv, hb, hc]

lemma eyePredB_congr {s1 s2 : MonState} (h : eyeProj s1 = eyeProj s2) (ear : ℚ) :
    eyePredB s1 ear = eyePredB s2 ear := by
  obtain ⟨hv, hc, hb, hh, he, hl⟩ := eyeProj_fields h
  have hcal := (calibStep_congr h ear).2.2
  simp only [eyePredB, smoothOf, thresholdOf, hh, hcal]

lemma eyeBase_congr {s1 s2 : MonState} (h : eyeProj s1 = eyeProj s2) (ear : ℚ) :
    eyeProj (eyeBase s1 ear) = eyeProj (eyeBase s2 ear) := by
  obtain ⟨hv, hc, hb, hh, he, hl⟩ := eyeProj_fields h
  obtain ⟨g1, g2, g3⟩ := calibStep_congr h ear
  simp only [eyeProj, eyeBase, Prod.mk.injEq]
  exact ⟨g1, g2, g3, by rw [hh],
    by rw [calibStep_eye_start, calibStep_eye_start, he],
    by rw [calibStep_last_eye, calibStep_last_eye, hl]⟩

lemma eyeUpdate_congr {s1 s2 : MonState} (h : eyeProj s1 = eyeProj s2)
    (u t : ℚ) (f : Option ℚ) :
    eyeProj (eyeUpdate u s1 t f).1 = eyeProj (eyeUpdate u s2 t f).1 ∧
    (eyeUpdate u s1 t f).2 = (eyeUpdate u s2 t f).2 := by
  obtain ⟨hv, hc, hb, hh, he, hl⟩ := eyeProj_fields h
  cases f with
  | none => exact ⟨h, rfl⟩
  | some ear =>
    have hpred := eyePredB_congr h ear
    have hbase := eyeBase_congr h ear
    obtain ⟨b1, b2, b3, b4, b5, b6⟩ := eyeProj_fields hbase
    cases hp : eyePredB s1 ear with
    | false =>
      rw [eyeUpdate_fail u s1 t ear hp, eyeUpdate_fail u s2 t ear (hpred ▸ hp)]
      exact ⟨by simp [eyeProj, b1, b2, b3, b4, b6], rfl⟩
    | true =>
      have hp2 : eyePredB s2 ear = true := hpred ▸ hp
      cases h0 : s1.eye_closed_start with
      | none =>
        have h02 : s2.eye_closed_start = none := he ▸ h0
        rw [eyeUpdate_setTimer u s1 t ear hp h0, eyeUpdate_setTimer u s2 t ear hp2 h02]
        exact ⟨by simp [eyeProj, b1, b2, b3, b4, b6], rfl⟩
      | some st =>
        have h02 : s2.eye_closed_start = some st := he ▸ h0
        by_cases hlong : u ≤ t - st
        · by_cases hcool : EYE_ALERT_COOLDOWN ≤ t - s1.last_eye_alert_time
          · have hcool2 : EYE_ALERT_COOLDOWN ≤ t - s2.last_eye_alert_time := by
              rw [← hl]; exact hcool
            rw [eyeUpdate_emit u s1 t ear st hp h0 hlong hcool,
                eyeUpdate_emit u s2 t ear st hp2 h02 hlong hcool2]
            exact ⟨by simp [eyeProj, b1, b2, b3, b4, b5], rfl⟩
          · have hcool2 : ¬ EYE_ALERT_COOLDOWN ≤ t - s2.last_eye_alert_time := by
              rw [← hl]; exact hcool
            rw [eyeUpdate_blocked u s1 t ear st hp h0 hlong hcool,
                eyeUpdate_blocked u s2 t ear st hp2 h02 hlong hcool2]
            exact ⟨hbase, rfl⟩
        · rw [eyeUpdate_short u s1 t ear st hp h0 hlong,
              eyeUpdate_short u s2 t ear st hp2 h02 hlong]
          exact ⟨hbase, rfl⟩

lemma step_phone_congr {s1 s2 : MonState} (h : phoneProj s1 = phoneProj s2)
    (u t : ℚ) (f1 f2 : Option ℚ) (p : Bool) :
    phoneProj (step u s1 ⟨t, f1, p⟩).1 = phoneProj (step u s2 ⟨t, f2, p⟩).1 ∧
    phoneEvents (step u s1 ⟨t, f1, p⟩).2 = phoneEvents (step u s2 ⟨t, f2, p⟩).2 := by
  have hmid : phoneProj (eyeUpdate u s1 t f1).1 = phoneProj (eyeUpdate u s2 t f2).1 := by
    rw [phoneProj_eyeUpdate, phoneProj_eyeUpdate]
    exact h
  have hc := phoneUpdate_congr hmid t p
  rw [phoneEvents_step, phoneEvents_step, step_state, step_state]
  exact hc

lemma step_eye_congr {s1 s2 : MonState} (h : eyeProj s1 = eyeProj s2)
    (u t : ℚ) (f : Option ℚ) (p1 p2 : Bool) :
    eyeProj (step u s1 ⟨t, f, p1⟩).1 = eyeProj (step u s2 ⟨t, f, p2⟩).1 ∧
    eyeEvents (step u s1 ⟨t, f, p1⟩).2 = eyeEvents (step u s2 ⟨t, f, p2⟩).2 := by
  have hc := eyeUpdate_congr h u t f
  rw [eyeEvents_step, eyeEvents_step, step_state, step_state]
  exact ⟨by rw [eyeProj_phoneUpdate, eyeProj_phoneUpdate]; exact hc.1, hc.2⟩

/-- Over whole traces, the phone-detector state and the phone_detected events
depend only on the frame times and phone flags, never on the EAR signal. -/
lemma run_phone_congr (u : ℚ) {s1 s2 : MonState} (h : phoneProj s1 = phoneProj s2)
    {L1 L2 : List FrameInput}
    (hmap : L1.map (fun i => (i.t, i.phone)) = L2.map (fun i => (i.t, i.phone))) :
    phoneProj (run u s1 L1).1 = phoneProj (run u s2 L2).1 ∧
    phoneEvents (run u s1 L1).2 = phoneEvents (run u s2 L2).2 := by
  induction L1 generalizing L2 s1 s2 with
  | nil =>
    cases L2 with
    | nil => exact ⟨h, rfl⟩
    | cons j r2 => simp at hmap
  | cons i r1 ih =>
    cases L2 with
    | nil => simp at hmap
    | cons j r2 =>
      obtain ⟨t1, f1, p1⟩ := i
      obtain ⟨t2, f2, p2⟩ := j
      simp only [List.map_cons, List.cons.injEq, Prod.mk.injEq] at hmap
      obtain ⟨⟨ht, hp⟩, hrest⟩ := hmap
      subst ht
      subst hp
      have hstep := step_phone_congr h u t1 f1 f2 p1
      have htail := ih hstep.1 hrest
      simp only [run]
      rw [phoneEvents_append, phoneEvents_append]
      exact ⟨htail.1, by rw [hstep.2, htail.2]⟩

/-- Over whole traces, the eye-detector state and the eye_closed events depend
only on the frame times and EAR signal, never on the phone flags. -/
lemma run_eye_congr (u : ℚ) {s1 s2 : MonState} (h : eyeProj s1 = eyeProj s2)
    {L1 L2 : List FrameInput}
    (hmap : L1.map (fun i => (i.t, i.faceEar)) = L2.map (fun i => (i.t, i.faceEar))) :
    eyeProj (run u s1 L1).1 = eyeProj (run u s2 L2).1 ∧
    eyeEvents (run u s1 L1).2 = eyeEvents (run u s2 L2).2 := by
  induction L1 generalizing L2 s1 s2 with
  | nil =>
    cases L2 with
    | nil => exact ⟨h, rfl⟩
    | cons j r2 => simp at hmap
  | cons i r1 ih =>
    cases L2 with
    | nil => simp at hmap
    | cons j r2 =>
      obtain ⟨t1, f1, p1⟩ := i
      obtain ⟨t2, f2, p2⟩ := j
      simp only [List.map_cons, List.cons.injEq, Prod.mk.injEq] at hmap
      obtain ⟨⟨ht, hf⟩, hrest⟩ := hmap
      subst ht
      subst hf
      have hstep := step_eye_congr h u t1 f1 p1 p2
      have htail := ih hstep.1 hrest
      simp only [run]
      rw [eyeEvents_append, eyeEvents_append]
      exact ⟨htail.1, by rw [hstep.2, htail.2]⟩

/-! ### The eye-closure timer: reset behaviour and short closure runs -/

lemma step_eye_start (u : ℚ) (s : MonState) (i : FrameInput) :
    (step u s i).1.eye_closed_start
      = (eyeUpdate u s i.t i.faceEar).1.eye_closed_start := by
  rw [step_state, phoneUpdate_eye_start]

/-- The timer after the eye section is null, unchanged, or the current frame
time. -/
lemma eyeUpdate_start_cases (u : ℚ) (s : MonState) (t : ℚ) (f : Option ℚ) :
    (eyeUpdate u s t f).1.eye_closed_start = none ∨
    (eyeUpdate u s t f).1.eye_closed_start = s.eye_closed_start ∨
    (eyeUpdate u s t f).1.eye_closed_start = some t := by
  cases f with
  | none => exact Or.inr (Or.inl rfl)
  | some ear =>
    cases hp : eyePredB s ear with
    | false =>
      rw [eyeUpdate_fail u s t ear hp]
      exact Or.inl rfl
    | true =>
      cases h0 : s.eye_closed_start with
      | none =>
        rw [eyeUpdate_setTimer u s t ear hp h0]
        exact Or.inr (Or.inr rfl)
      | some st =>
        by_cases hlong : u ≤ t - st
        · by_cases hcool : EYE_ALERT_COOLDOWN ≤ t - s.last_eye_alert_time
          · rw [eyeUpdate_emit u s t ear st hp h0 hlong hcool]
            exact Or.inr (Or.inl ((eyeBase_eye_start s ear).trans h0))
          · rw [eyeUpdate_blocked u s t ear st hp h0 hlong hcool]
            exact Or.inr (Or.inl ((eyeBase_eye_start s ear).trans h0))
        · rw [eyeUpdate_short u s t ear st hp h0 hlong]
          exact Or.inr (Or.inl ((eyeBase_eye_start s ear).trans h0))

/-- A frame whose smoothed EAR fails the closure predicate resets the timer to
null and emits no eye_closed event. -/
lemma step_eyeFails (u : ℚ) (s : MonState) (i : FrameInput)
    (h : eyeFails s i = true) :
    (step u s i).1.eye_closed_start = none ∧ eyeEvents (step u s i).2 = [] := by
  obtain ⟨t1, f1, p1⟩ := i
  unfold eyeFails at h
  rw [step_eye_start, eyeEvents_step]
  cases f1 with
  | none => simp at h
  | some ear =>
    simp only [Bool.not_eq_true'] at h
    rw [show (FrameInput.mk t1 (some ear) p1).faceEar = some ear from rfl,
        show (FrameInput.mk t1 (some ear) p1).t = t1 from rfl,
        eyeUpdate_fail u s t1 ear h]
    exact ⟨rfl, rfl⟩

/-- The per-frame condition under which a frame cannot confirm a closure: any
running timer was started less than the closure duration before this frame. -/
def TimerOK (u : ℚ) (s : MonState) (a : FrameInput) : Prop :=
  ∀ tb, s.eye_closed_start = some tb → a.t - tb < u

/-- No eye_closed event can be emitted over a list of frames whose times all
fit inside a window shorter than the closure duration, starting from any state
whose running timer (if any) is also too recent for every frame of the list. -/
lemma eye_no_emit_window (u : ℚ) (L : List FrameInput) (s : MonState)
    (hT : ∀ a ∈ L, TimerOK u s a)
    (hspan : ∀ a ∈ L, ∀ b ∈ L, a.t - b.t < u) :
    eyeEvents (run u s L).2 = [] := by
  induction L generalizing s with
  | nil => rfl
  | cons i rest ih =>
    have hnoemit : (eyeUpdate u s i.t i.faceEar).2 = [] := by
      rcases eyeUpdate_last_cases u s i.t i.faceEar with ⟨hev, _⟩ |
        ⟨st, hst, hlong, _, _, _, _⟩
      · exact hev
      · have := hT i (List.mem_cons_self i rest) st hst
        linarith
    have hT2 : ∀ a ∈ rest, TimerOK u (step u s i).1 a := by
      intro a ha tb htb
      rw [step_eye_start] at htb
      rcases eyeUpdate_start_cases u s i.t i.faceEar with h0 | h0 | h0
      · rw [h0] at htb
        exact absurd htb (by simp)
      · rw [h0] at htb
        exact hT a (List.mem_cons_of_mem i ha) tb htb
      · rw [h0] at htb
        have htb2 : i.t = tb := by injection htb
        subst htb2
        exact hspan a (List.mem_cons_of_mem i ha) i (List.mem_cons_self i rest)
    have hspan2 : ∀ a ∈ rest, ∀ b ∈ rest, a.t - b.t < u := by
      intro a ha b hb
      exact hspan a (List.mem_cons_of_mem i ha) b (List.mem_cons_of_mem i hb)
    simp only [run]
    rw [eyeEvents_append, eyeEvents_step, hnoemit, List.nil_append]
    exact ih (step u s i).1 hT2 hspan2

/-- Over any sequence of C1 blocks (short runs each ended by a frame failing
the closure predicate), starting with a null timer, no eye_closed event is ever
emitted and the timer is null again at the end. -/
lemma eye_no_emit_blocks (u : ℚ) (bs : List (List FrameInput × FrameInput))
    (s : MonState) (h0 : s.eye_closed_start = none) (hb : BlocksOK u s bs) :
    eyeEvents (run u s (flattenBlocks bs)).2 = [] ∧
    (run u s (flattenBlocks bs)).1.eye_closed_start = none := by
  induction bs generalizing s with
  | nil => exact ⟨rfl, h0⟩
  | cons blk rest ih =>
    obtain ⟨C, f⟩ := blk
    obtain ⟨hspan, hfail, hrest⟩ := hb
    have hflat : flattenBlocks ((C, f) :: rest) = (C ++ [f]) ++ flattenBlocks rest := by
      simp [flattenBlocks]
    have hT : ∀ a ∈ C ++ [f], TimerOK u s a := by
      intro a _ tb htb
      rw [h0] at htb
      exact absurd htb (by simp)
    have hblockev : eyeEvents (run u s (C ++ [f])).2 = [] :=
      eye_no_emit_window u (C ++ [f]) s hT hspan
    have hmid : (run u s (C ++ [f])).1 = (step u (run u s C).1 f).1 := by
      rw [run_append]
      simp [run]
    have hmidnone : (run u s (C ++ [f])).1.eye_closed_start = none := by
      rw [hmid]
      exact (step_eyeFails u (run u s C).1 f hfail).1
    have htail := ih (run u s (C ++ [f])).1 hmidnone hrest
    rw [hflat, run_append, eyeEvents_append, hblockev, List.nil_append]
    exact htail

/-! ### The phone counter: reset behaviour and the 3-positive/1-negative pattern -/

lemma step_phoneProj (u : ℚ) (s : MonState) (i : FrameInput) :
    phoneProj (step u s i).1
      = phoneProj (phoneUpdate (eyeUpdate u s i.t i.faceEar).1 i.t i.phone).1 := rfl

/-- A non-qualifying frame resets the counter to exactly 0, discards the
candidate interval, and emits no phone_detected event. -/
lemma step_phone_neg (u : ℚ) (s : MonState) (i : FrameInput) (h : i.phone = false) :
    (step u s i).1.phone_detected_frames = 0 ∧
    (step u s i).1.phone_event_start = none ∧
    phoneEvents (step u s i).2 = [] := by
  rw [step_state, phoneEvents_step, h, phoneUpdate_neg]
  exact ⟨rfl, rfl, rfl⟩

/-- A qualifying frame that does not yet reach the confirmation threshold just
increments the counter and emits nothing. -/
lemma step_phone_pos_short (u : ℚ) (s : MonState) (i : FrameInput)
    (h : i.phone = true) (hlt : s.phone_detected_frames + 1 < MIN_PHONE_FRAMES) :
    (step u s i).1.phone_detected_frames = s.phone_detected_frames + 1 ∧
    (step u s i).1.phone_event_start = s.phone_event_start ∧
    phoneEvents (step u s i).2 = [] := by
  obtain ⟨hc, hs, hl⟩ := phoneProj_fields (phoneProj_eyeUpdate u s i.t i.faceEar)
  rw [step_state, phoneEvents_step, h,
      phoneUpdate_pos_short (eyeUpdate u s i.t i.faceEar).1 i.t (by omega)]
  exact ⟨by simpa using hc, by simpa using hs, rfl⟩

/-- Over any trace whose phone flags follow the pattern
(3 qualifying frames, then 1 non-qualifying frame) repeated k times, starting
from a zero counter, no phone_detected event is emitted and the counter ends at
0 again. -/
lemma phone_pattern_no_emit (u : ℚ) (k : ℕ) (L : List FrameInput) (s : MonState)
    (h0 : s.phone_detected_frames = 0)
    (hm : L.map FrameInput.phone = patRepeat k) :
    phoneEvents (run u s L).2 = [] ∧ (run u s L).1.phone_detected_frames = 0 := by
  induction k generalizing L s with
  | zero =>
    rw [patRepeat, List.map_eq_nil_iff] at hm
    subst hm
    exact ⟨rfl, h0⟩
  | succ k ih =>
    rw [patRepeat] at hm
    cases L with
    | nil => simp at hm
    | cons i1 L1 =>
    cases L1 with
    | nil => simp at hm
    | cons i2 L2 =>
    cases L2 with
    | nil => simp at hm
    | cons i3 L3 =>
    cases L3 with
    | nil => simp at hm
    | cons i4 L' =>
      simp only [List.map_cons, List.cons.injEq] at hm
      obtain ⟨hp1, hp2, hp3, hp4, hm'⟩ := hm
      have st1 := step_phone_pos_short u s i1 hp1
        (by rw [h0]; norm_num [MIN_PHONE_FRAMES])
      have st2 := step_phone_pos_short u (step u s i1).1 i2 hp2
        (by rw [st1.1, h0]; norm_num [MIN_PHONE_FRAMES])
      have st3 := step_phone_pos_short u (step u (step u s i1).1 i2).1 i3 hp3
        (by rw [st2.1, st1.1, h0]; norm_num [MIN_PHONE_FRAMES])
      have st4 := step_phone_neg u (step u (step u (step u s i1).1 i2).1 i3).1 i4 hp4
      have htail := ih L' (step u (step u (step u (step u s i1).1 i2).1 i3).1 i4).1
        st4.1 hm'
      simp only [run]
      rw [phoneEvents_append, phoneEvents_append, phoneEvents_append,
          phoneEvents_append]
      rw [st1.2.2, st2.2.2, st3.2.2, st4.2.2]
      simp only [List.nil_append]
      exact htail

/-! ### Positivity of the median and the calibration invariant -/

lemma sortedInsert_mem {a x : ℚ} {l : List ℚ} (h : a ∈ sortedInsert x l) :
    a = x ∨ a ∈ l := by
  induction l with
  | nil => simpa [sortedInsert] using h
  | cons y ys ih =>
    rw [sortedInsert] at h
    split_ifs at h with hle
    · rcases List.mem_cons.mp h with h | h
      · exact Or.inl h
      · exact Or.inr h
    · rcases List.mem_cons.mp h with h | h
      · exact Or.inr (List.mem_cons.mpr (Or.inl h))
      · rcases ih h with h | h
        · exact Or.inl h
        · exact Or.inr (List.mem_cons.mpr (Or.inr h))

lemma sortList_mem {a : ℚ} {l : List ℚ} (h : a ∈ sortList l) : a ∈ l := by
  induction l with
  | nil => exact absurd h (by simp [sortList])
  | cons y ys ih =>
    rcases sortedInsert_mem h with h | h
    · exact List.mem_cons.mpr (Or.inl h)
    · exact List.mem_cons.mpr (Or.inr (ih h))

lemma sortedInsert_length (x : ℚ) (l : List ℚ) :
    (sortedInsert x l).length = l.length + 1 := by
  induction l with
  | nil => rfl
  | cons y ys ih =>
    rw [sortedInsert]
    split_ifs
    · rfl
    · simp [ih]

lemma sortList_length (l : List ℚ) : (sortList l).length = l.length := by
  induction l with
  | nil => rfl
  | cons y ys ih =>
    show (sortedInsert y (sortList ys)).length = ys.length + 1
    rw [sortedInsert_length, ih]

lemma getD_pos_of_lt {l : List ℚ} (hpos : ∀ x ∈ l, 0 < x) {k : ℕ}
    (hk : k < l.length) : 0 < l.getD k 0 := by
  rw [List.getD_eq_getElem l 0 hk]
  exact hpos _ (List.getElem_mem hk)

/-- The median of a non-empty list of positive rationals is positive. -/
lemma median_pos {l : List ℚ} (hne : l ≠ []) (hpos : ∀ x ∈ l, 0 < x) :
    0 < median l := by
  have hlen : 0 < (sortList l).length := by
    rw [sortList_length]
    exact List.length_pos.mpr hne
  have hspos : ∀ x ∈ sortList l, 0 < x := fun x hx => hpos x (sortList_mem hx)
  rw [median]
  split_ifs with hodd
  · exact getD_pos_of_lt hspos (Nat.div_lt_self hlen (by norm_num))
  · have h1 : (sortList l).length / 2 - 1 < (sortList l).length := by omega
    have h2 : (sortList l).length / 2 < (sortList l).length :=
      Nat.div_lt_self hlen (by norm_num)
    have p1 := getD_pos_of_lt hspos h1
    have p2 := getD_pos_of_lt hspos h2
    exact div_pos (by linarith) (by norm_num)

lemma calibVals_pos {s : MonState} (h : ∀ x ∈ s.baseline_vals, 0 < x) (ear : ℚ) :
    ∀ x ∈ calibVals s ear, 0 < x := by
  unfold calibVals
  split_ifs with hear
  · intro x hx
    rcases List.mem_append.mp hx with hx | hx
    · exact h x hx
    · rw [List.mem_singleton] at hx
      subst hx
      exact hear
  · exact h

/-- The invariant of the calibration fields along any execution: the frame
counter never exceeds BASELINE_FRAMES, the baseline is set exactly when the
counter has reached BASELINE_FRAMES, the baseline (once set) is positive, and
every collected sample is positive. -/
def ReachInv (s : MonState) : Prop :=
  s.frame_count ≤ BASELINE_FRAMES ∧
  (s.baseline_ear = none ↔ s.frame_count < BASELINE_FRAMES) ∧
  (∀ b, s.baseline_ear = some b → 0 < b) ∧
  (∀ x ∈ s.baseline_vals, 0 < x)

lemma reachInv_init : ReachInv initState := by
  refine ⟨by norm_num [initState, BASELINE_FRAMES], ?_, ?_, ?_⟩
  · simp [initState, BASELINE_FRAMES]
  · intro b hb
    simp [initState] at hb
  · intro x hx
    simp [initState] at hx

lemma calibStep_frame_count (s : MonState) (ear : ℚ) :
    (calibStep s ear).frame_count
      = if s.frame_count < BASELINE_FRAMES then s.frame_count + 1
        else s.frame_count := by
  unfold calibStep
  split_ifs <;> rfl

lemma calibStep_baseline_vals (s : MonState) (ear : ℚ) :
    (calibStep s ear).baseline_vals
      = if s.frame_count < BASELINE_FRAMES then calibVals s ear
        else s.baseline_vals := by
  unfold calibStep
  split_ifs <;> rfl

lemma calibStep_baseline_ear (s : MonState) (ear : ℚ) :
    (calibStep s ear).baseline_ear
      = if s.frame_count < BASELINE_FRAMES then
          (if s.frame_count + 1 = BASELINE_FRAMES then
            some (if calibVals s ear = [] then FALLBACK_BASELINE
                  else median (calibVals s ear))
           else s.baseline_ear)
        else s.baseline_ear := by
  unfold calibStep
  split_ifs <;> rfl

lemma calibStep_reachInv {s : MonState} (ear : ℚ) (h : ReachInv s) :
    ReachInv (calibStep s ear) := by
  obtain ⟨h1, h2, h3, h4⟩ := h
  unfold ReachInv
  rw [calibStep_frame_count, calibStep_baseline_vals, calibStep_baseline_ear]
  split_ifs with hlt hcrit hemp
  · refine ⟨by omega, by simp; omega, ?_, calibVals_pos h4 ear⟩
    intro b hb
    simp only [Option.some.injEq] at hb
    subst hb
    norm_num [FALLBACK_BASELINE]
  · refine ⟨by omega, by simp; omega, ?_, calibVals_pos h4 ear⟩
    intro b hb
    simp only [Option.some.injEq] at hb
    subst hb
    exact median_pos hemp (calibVals_pos h4 ear)
  · refine ⟨by omega, ?_, h3, calibVals_pos h4 ear⟩
    constructor
    · intro _
      omega
    · intro _
      exact h2.mpr hlt
  · exact ⟨h1, h2, h3, h4⟩

lemma calibProj_eyeUpdate_some (u : ℚ) (s : MonState) (t ear : ℚ) :
    calibProj (eyeUpdate u s t (some ear)).1 = calibProj (calibStep s ear) := by
  simp only [eyeUpdate]
  split
  · split
    · rfl
    · split
      · split
        · rfl
        · rfl
      · rfl
  · rfl

lemma calibProj_phoneUpdate (s : MonState) (t : ℚ) (p : Bool) :
    calibProj (phoneUpdate s t p).1 = calibProj s := by
  simp only [calibProj, phoneUpdate_baseline_vals, phoneUpdate_frame_count,
    phoneUpdate_baseline_ear]

lemma step_calibProj (u : ℚ) (s : MonState) (i : FrameInput) :
    calibProj (step u s i).1
      = match i.faceEar with
        | none => calibProj s
        | some ear => calibProj (calibStep s ear) := by
  rw [step_state, calibProj_phoneUpdate]
  cases hf : i.faceEar with
  | none => rfl
  | some ear => exact calibProj_eyeUpdate_some u s i.t ear

lemma reachInv_of_calibProj_eq {s1 s2 : MonState} (h : calibProj s1 = calibProj s2)
    (hinv : ReachInv s2) : ReachInv s1 := by
  obtain ⟨hv, hc, hb⟩ : s1.baseline_vals = s2.baseline_vals ∧
      s1.frame_count = s2.frame_count ∧ s1.baseline_ear = s2.baseline_ear := by
    simpa [calibProj, Prod.ext_iff] using h
  unfold ReachInv
  rw [hv, hc, hb]
  exact hinv

lemma step_reachInv (u : ℚ) (s : MonState) (i : FrameInput) (h : ReachInv s) :
    ReachInv (step u s i).1 := by
  have hc := step_calibProj u s i
  cases hf : i.faceEar with
  | none =>
    rw [hf] at hc
    exact reachInv_of_calibProj_eq hc h
  | some ear =>
    rw [hf] at hc
    exact reachInv_of_calibProj_eq hc (calibStep_reachInv ear h)

lemma run_reachInv (u : ℚ) (L : List FrameInput) (s : MonState) (h : ReachInv s) :
    ReachInv (run u s L).1 := by
  induction L generalizing s with
  | nil => exact h
  | cons i rest ih => exact ih (step u s i).1 (step_reachInv u s i h)

lemma calibProj_fields {s1 s2 : MonState} (h : calibProj s1 = calibProj s2) :
    s1.baseline_vals = s2.baseline_vals ∧ s1.frame_count = s2.frame_count ∧
    s1.baseline_ear = s2.baseline_ear := by
  simpa [calibProj, Prod.ext_iff] using h

/-- Once set, a single loop iteration never changes the baseline. -/
lemma step_baseline_stable (u : ℚ) (s : MonState) (i : FrameInput) (b : ℚ)
    (hinv : ReachInv s) (hb : s.baseline_ear = some b) :
    (step u s i).1.baseline_ear = some b := by
  have hge : ¬ s.frame_count < BASELINE_FRAMES := by
    intro hlt
    have := hinv.2.1.mpr hlt
    rw [this] at hb
    cases hb
  have hc := step_calibProj u s i
  cases hf : i.faceEar with
  | none =>
    rw [hf] at hc
    rw [(calibProj_fields hc).2.2, hb]
  | some ear =>
    rw [hf] at hc
    rw [(calibProj_fields hc).2.2, calibStep_baseline_ear, if_neg hge, hb]

lemma run_baseline_stable (u : ℚ) (L : List FrameInput) (s : MonState) (b : ℚ)
    (hinv : ReachInv s) (hb : s.baseline_ear = some b) :
    (run u s L).1.baseline_ear = some b := by
  induction L generalizing s with
  | nil => exact hb
  | cons i rest ih =>
    exact ih (step u s i).1 (step_reachInv u s i hinv)
      (step_baseline_stable u s i b hinv hb)

/-- If a loop iteration turns the baseline from unset to set, then the frame
had a face, the calibration counter reached exactly BASELINE_FRAMES on it, and
the value set is the median of the collected valid samples (or the fallback
when none were collected). -/
lemma step_baseline_set (u : ℚ) (s : MonState) (i : FrameInput) (b : ℚ)
    (h0 : s.baseline_ear = none)
    (hset : (step u s i).1.baseline_ear = some b) :
    ∃ ear, i.faceEar = some ear ∧ s.frame_count + 1 = BASELINE_FRAMES ∧
      (step u s i).1.frame_count = BASELINE_FRAMES ∧
      b = (if calibVals s ear = [] then FALLBACK_BASELINE
           else median (calibVals s ear)) := by
  have hc := step_calibProj u s i
  cases hf : i.faceEar with
  | none =>
    rw [hf] at hc
    rw [(calibProj_fields hc).2.2, h0] at hset
    cases hset
  | some ear =>
    rw [hf] at hc
    obtain ⟨_, hcount, hbase⟩ := calibProj_fields hc
    rw [hbase, calibStep_baseline_ear] at hset
    by_cases hlt : s.frame_count < BASELINE_FRAMES
    · rw [if_pos hlt] at hset
      by_cases hcrit : s.frame_count + 1 = BASELINE_FRAMES
      · rw [if_pos hcrit] at hset
        refine ⟨ear, rfl, hcrit, ?_, ?_⟩
        · rw [hcount, calibStep_frame_count, if_pos hlt, hcrit]
        · injection hset with hv
          exact hv.symm
      · rw [if_neg hcrit, h0] at hset
        cases hset
    · rw [if_neg hlt, h0] at hset
      cases hset

/-! ### The phone detector before its first emission -/

lemma step_phone_neg_last (u : ℚ) (s : MonState) (i : FrameInput)
    (h : i.phone = false) :
    (step u s i).1.last_phone_alert_time = s.last_phone_alert_time := by
  obtain ⟨_, _, hl⟩ := phoneProj_fields (phoneProj_eyeUpdate u s i.t i.faceEar)
  rw [step_last_phone, h, phoneUpdate_neg]
  exact hl

lemma step_phone_pos_short_last (u : ℚ) (s : MonState) (i : FrameInput)
    (h : i.phone = true) (hlt : s.phone_detected_frames + 1 < MIN_PHONE_FRAMES) :
    (step u s i).1.last_phone_alert_time = s.last_phone_alert_time := by
  obtain ⟨hcnt, _, hl⟩ := phoneProj_fields (phoneProj_eyeUpdate u s i.t i.faceEar)
  rw [step_last_phone, h, phoneUpdate_pos_short _ i.t (by omega)]
  exact hl

/-- A loop iteration whose confirmed phone candidate passes the cooldown gate:
one phone_detected event at the frame time with duration measured from the
stored candidate start, counter incremented, candidate start and gate both
moved to the frame time. -/
lemma step_phone_emit (u : ℚ) (s : MonState) (i : FrameInput)
    (hph : i.phone = true)
    (hge : MIN_PHONE_FRAMES ≤ s.phone_detected_frames + 1)
    (hcool : PHONE_ALERT_COOLDOWN ≤ i.t - s.last_phone_alert_time) :
    phoneEvents (step u s i).2
      = [{ etype := EvType.phone_detected, time := i.t,
           duration := i.t - s.phone_event_start.getD i.t }] ∧
    (step u s i).1.phone_detected_frames = s.phone_detected_frames + 1 ∧
    (step u s i).1.phone_event_start = some i.t ∧
    (step u s i).1.last_phone_alert_time = i.t := by
  obtain ⟨hc, hs, hl⟩ := phoneProj_fields (phoneProj_eyeUpdate u s i.t i.faceEar)
  rw [step_state, phoneEvents_step, hph,
      phoneUpdate_pos_emit _ i.t (by omega) (by rw [hl]; exact hcool)]
  refine ⟨?_, by rw [hc], rfl, rfl⟩
  simp [phoneEvents, isPhoneEvent, hs]

/-- The state of the phone detector while it has not yet emitted: gate still at
its initial 0, no candidate interval, counter strictly below the confirmation
threshold. -/
def FreshPhone (s : MonState) : Prop :=
  s.last_phone_alert_time = 0 ∧ s.phone_event_start = none ∧
  s.phone_detected_frames + 1 ≤ MIN_PHONE_FRAMES

lemma step_freshPhone (u : ℚ) (s : MonState) (i : FrameInput)
    (ht : PHONE_ALERT_COOLDOWN ≤ i.t) (hfresh : FreshPhone s)
    (hnoev : phoneEvents (step u s i).2 = []) : FreshPhone (step u s i).1 := by
  obtain ⟨hl, hs, hcnt⟩ := hfresh
  cases hph : i.phone with
  | false =>
    obtain ⟨h1, h2, _⟩ := step_phone_neg u s i hph
    exact ⟨(step_phone_neg_last u s i hph).trans hl, h2,
      by rw [h1]; norm_num [MIN_PHONE_FRAMES]⟩
  | true =>
    by_cases hconf : MIN_PHONE_FRAMES ≤ s.phone_detected_frames + 1
    · exfalso
      have hcool : PHONE_ALERT_COOLDOWN ≤ i.t - s.last_phone_alert_time := by
        rw [hl]
        simpa using ht
      have := (step_phone_emit u s i hph hconf hcool).1
      rw [hnoev] at this
      cases this
    · obtain ⟨h1, h2, _⟩ := step_phone_pos_short u s i hph (by omega)
      exact ⟨(step_phone_pos_short_last u s i hph (by omega)).trans hl,
        h2.trans hs, by omega⟩

lemma run_freshPhone (u : ℚ) (L : List FrameInput) (s : MonState)
    (hts : ∀ i ∈ L, PHONE_ALERT_COOLDOWN ≤ i.t) (hfresh : FreshPhone s)
    (hnoev : phoneEvents (run u s L).2 = []) : FreshPhone (run u s L).1 := by
  induction L generalizing s with
  | nil => exact hfresh
  | cons i rest ih =>
    simp only [run] at hnoev
    rw [phoneEvents_append] at hnoev
    have h1 : phoneEvents (step u s i).2 = [] := by
      cases hx : phoneEvents (step u s i).2 with
      | nil => rfl
      | cons a l =>
        rw [hx] at hnoev
        simp at hnoev
    have h2 : phoneEvents (run u (step u s i).1 rest).2 = [] := by
      rw [h1, List.nil_append] at hnoev
      exact hnoev
    exact ih (step u s i).1 (fun j hj => hts j (List.mem_cons_of_mem i hj))
      (step_freshPhone u s i (hts i (List.mem_cons_self i rest)) hfresh h1)
      h2

/-! ### Step-level facts for confirmed eye closures and the dynamic threshold -/

lemma step_eye_emit (u : ℚ) (s : MonState) (i : FrameInput) (ear st : ℚ)
    (hf : i.faceEar = some ear) (hp : eyePredB s ear = true)
    (h0 : s.eye_closed_start = some st) (hlong : u ≤ i.t - st)
    (hcool : EYE_ALERT_COOLDOWN ≤ i.t - s.last_eye_alert_time) :
    eyeEvents (step u s i).2
      = [{ etype := EvType.eye_closed, time := i.t, duration := i.t - st }] ∧
    (step u s i).1.eye_closed_start = some st ∧
    (step u s i).1.last_eye_alert_time = i.t := by
  rw [eyeEvents_step, step_eye_start, step_last_eye, hf,
      eyeUpdate_emit u s i.t ear st hp h0 hlong hcool]
  exact ⟨rfl, (eyeBase_eye_start s ear).trans h0, rfl⟩

lemma step_eye_blocked (u : ℚ) (s : MonState) (i : FrameInput) (ear st : ℚ)
    (hf : i.faceEar = some ear) (hp : eyePredB s ear = true)
    (h0 : s.eye_closed_start = some st) (hlong : u ≤ i.t - st)
    (hcool : ¬ EYE_ALERT_COOLDOWN ≤ i.t - s.last_eye_alert_time) :
    eyeEvents (step u s i).2 = [] ∧
    (step u s i).1.eye_closed_start = some st ∧
    (step u s i).1.last_eye_alert_time = s.last_eye_alert_time := by
  rw [eyeEvents_step, step_eye_start, step_last_eye, hf,
      eyeUpdate_blocked u s i.t ear st hp h0 hlong hcool]
  exact ⟨rfl, (eyeBase_eye_start s ear).trans h0, eyeBase_last_eye s ear⟩

lemma phone_emit_requires (u : ℚ) (s : MonState) (i : FrameInput) (e : EmEvent)
    (he : e ∈ phoneEvents (step u s i).2) :
    i.phone = true ∧ MIN_PHONE_FRAMES ≤ s.phone_detected_frames + 1 := by
  cases hph : i.phone with
  | false =>
    rw [(step_phone_neg u s i hph).2.2] at he
    cases he
  | true =>
    refine ⟨rfl, ?_⟩
    by_contra hlt
    rw [(step_phone_pos_short u s i hph (by omega)).2.2] at he
    cases he

lemma thresholdOf_cases (s : MonState) (ear : ℚ)
    (hpos : ∀ b, (calibStep s ear).baseline_ear = some b → 0 < b) :
    ((calibStep s ear).baseline_ear = none →
      thresholdOf s ear = FALLBACK_THRESHOLD) ∧
    (∀ b, (calibStep s ear).baseline_ear = some b →
      thresholdOf s ear = b * EAR_DYNAMIC_MULTIPLIER) := by
  unfold thresholdOf
  constructor
  · intro h
    rw [h]
    rfl
  · intro b hb
    rw [hb, dynamicThreshold, if_pos (ne_of_gt (hpos b hb))]

/-! ### Claim theorems -/

/-- C1: on every processed frame whose smoothed EAR fails the closure predicate
(value not strictly between 0 and the current dynamic threshold), the
eye-closure timer is reset to null and no eye_closed event is emitted; hence,
starting from a null timer, any sequence of blocks — each a run of frames whose
times all fall inside a window shorter than the per-user closure duration,
ended by a single frame failing the predicate — never emits an eye_closed
event, no matter how many blocks are repeated. -/
theorem C1_closure_timer_reset :
    (∀ (u : ℚ) (s : MonState) (i : FrameInput), eyeFails s i = true →
      (step u s i).1.eye_closed_start = none ∧ eyeEvents (step u s i).2 = []) ∧
    (∀ (u : ℚ) (s : MonState) (bs : List (List FrameInput × FrameInput)),
      s.eye_closed_start = none → BlocksOK u s bs →
      eyeEvents (run u s (flattenBlocks bs)).2 = []) :=
  ⟨step_eyeFails,
   fun u s bs h0 hb => (eye_no_emit_blocks u bs s h0 hb).1⟩

/-- Witness for C1 at a concrete input: closure duration 3 s, one block of a
single below-threshold frame at t = 10 ended by an above-threshold frame at
t = 11, repeated twice; no eye_closed event is emitted. -/
theorem C1_closure_timer_reset_witness :
    eyeEvents (run 3 initState (flattenBlocks
      [([{ t := 10, faceEar := some (1/10), phone := false }],
        { t := 11, faceEar := some (9/10), phone := false }),
       ([{ t := 12, faceEar := some (1/10), phone := false }],
        { t := 13, faceEar := some (9/10), phone := false })])).2 = [] := by
  refine C1_closure_timer_reset.2 3 initState _ rfl ⟨?_, ?_, ?_, ?_, trivial⟩
  · intro a ha b hb
    fin_cases ha <;> fin_cases hb <;> norm_num
  · norm_num [run, step, eyeUpdate, phoneUpdate, phoneConfirm, phoneEmit,
      phoneReset, eyeFails, eyePredB, eyeBase, smoothOf, thresholdOf, calibStep,
      calibVals, smoothUpdate, listMean, dynamicThreshold, initState,
      MIN_PHONE_FRAMES, PHONE_ALERT_COOLDOWN, EAR_SMOOTH_WINDOW, BASELINE_FRAMES,
      FALLBACK_THRESHOLD, FALLBACK_BASELINE, EAR_DYNAMIC_MULTIPLIER,
      EYE_ALERT_COOLDOWN]
  · intro a ha b hb
    fin_cases ha <;> fin_cases hb <;> norm_num
  · norm_num [run, step, eyeUpdate, phoneUpdate, phoneConfirm, phoneEmit,
      phoneReset, eyeFails, eyePredB, eyeBase, smoothOf, thresholdOf, calibStep,
      calibVals, smoothUpdate, listMean, dynamicThreshold, initState,
      MIN_PHONE_FRAMES, PHONE_ALERT_COOLDOWN, EAR_SMOOTH_WINDOW, BASELINE_FRAMES,
      FALLBACK_THRESHOLD, FALLBACK_BASELINE, EAR_DYNAMIC_MULTIPLIER,
      EYE_ALERT_COOLDOWN]

/-- C2: a phone_detected event can be emitted on a frame only if the frame
qualifies and the counter (after its increment) has reached MIN_PHONE_FRAMES;
any non-qualifying frame resets the counter to exactly 0 and discards the
candidate interval; and any trace whose phone flags are k repetitions of
(3 qualifying frames, 1 non-qualifying frame), starting from a zero counter,
never emits a phone_detected event. -/
theorem C2_phone_confirmation :
    (∀ (u : ℚ) (s : MonState) (i : FrameInput), i.phone = false →
      (step u s i).1.phone_detected_frames = 0 ∧
      (step u s i).1.phone_event_start = none ∧
      phoneEvents (step u s i).2 = []) ∧
    (∀ (u : ℚ) (s : MonState) (i : FrameInput) (e : EmEvent),
      e ∈ phoneEvents (step u s i).2 →
      i.phone = true ∧ MIN_PHONE_FRAMES ≤ s.phone_detected_frames + 1) ∧
    (∀ (u : ℚ) (k : ℕ) (s : MonState) (L : List FrameInput),
      s.phone_detected_frames = 0 → L.map FrameInput.phone = patRepeat k →
      phoneEvents (run u s L).2 = []) :=
  ⟨step_phone_neg, phone_emit_requires,
   fun u k s L h0 hm => (phone_pattern_no_emit u k L s h0 hm).1⟩

/-- Witness for C2 at a concrete input: two repetitions of 3 qualifying frames
followed by 1 non-qualifying frame emit no phone_detected event. -/
theorem C2_phone_confirmation_witness :
    phoneEvents (run 3 initState
      [{ t := 1, faceEar := none, phone := true },
       { t := 2, faceEar := none, phone := true },
       { t := 3, faceEar := none, phone := true },
       { t := 4, faceEar := none, phone := false },
       { t := 5, faceEar := none, phone := true },
       { t := 6, faceEar := none, phone := true },
       { t := 7, faceEar := none, phone := true },
       { t := 8, faceEar := none, phone := false }]).2 = [] :=
  C2_phone_confirmation.2.2 3 2 initState _ rfl rfl

/-- C3: over any trace from the initial state, any two eye_closed events are at
least EYE_ALERT_COOLDOWN apart and any two phone_detected events are at least
PHONE_ALERT_COOLDOWN apart (in emission order, hence pairwise); moreover the
two gates are independent: the phone_detected events of a run are a function of
the frame times and phone flags only (unchanged under any change of the EAR
signal), and symmetrically the eye_closed events are a function of the frame
times and EAR signal only. -/
theorem C3_cooldown_gates :
    (∀ (u : ℚ) (L : List FrameInput),
      gapOK EYE_ALERT_COOLDOWN (eyeEvents (run u initState L).2) ∧
      gapOK PHONE_ALERT_COOLDOWN (phoneEvents (run u initState L).2)) ∧
    (∀ (u : ℚ) (s : MonState) (L1 L2 : List FrameInput),
      L1.map (fun i => (i.t, i.phone)) = L2.map (fun i => (i.t, i.phone)) →
      phoneEvents (run u s L1).2 = phoneEvents (run u s L2).2) ∧
    (∀ (u : ℚ) (s : MonState) (L1 L2 : List FrameInput),
      L1.map (fun i => (i.t, i.faceEar)) = L2.map (fun i => (i.t, i.faceEar)) →
      eyeEvents (run u s L1).2 = eyeEvents (run u s L2).2) := by
  refine ⟨fun u L => ⟨?_, ?_⟩, fun u s L1 L2 hmap => (run_phone_congr u rfl hmap).2,
    fun u s L1 L2 hmap => (run_eye_congr u rfl hmap).2⟩
  · have h := eye_gateInv_run u L initState []
      ⟨List.Pairwise.nil, by intro e he; cases he⟩
    rw [List.nil_append] at h
    exact h.1
  · have h := phone_gateInv_run u L initState []
      ⟨List.Pairwise.nil, by intro e he; cases he⟩
    rw [List.nil_append] at h
    exact h.1

/-- Witness for C3 at a concrete input: changing only the EAR signal of a frame
does not change the phone_detected events of the run. -/
theorem C3_cooldown_gates_witness :
    phoneEvents (run 3 initState
      [{ t := 10, faceEar := some (1/10), phone := true }]).2
    = phoneEvents (run 3 initState
      [{ t := 10, faceEar := none, phone := true }]).2 :=
  C3_cooldown_gates.2.1 3 initState _ _ rfl

/-- C4: every state reachable from the initial state satisfies the calibration
invariant; once the baseline is set it is never recomputed by any further
frames; and the transition that sets a previously-unset baseline happens
exactly on a face frame where the calibration counter reaches BASELINE_FRAMES,
with the value being the median of the collected valid (strictly positive)
samples, or the fixed fallback constant when none were collected. -/
theorem C4_baseline_once :
    (∀ (u : ℚ) (L : List FrameInput), ReachInv (run u initState L).1) ∧
    (∀ (u : ℚ) (s : MonState) (L : List FrameInput) (b : ℚ), ReachInv s →
      s.baseline_ear = some b → (run u s L).1.baseline_ear = some b) ∧
    (∀ (u : ℚ) (s : MonState) (i : FrameInput) (b : ℚ),
      s.baseline_ear = none → (step u s i).1.baseline_ear = some b →
      ∃ ear, i.faceEar = some ear ∧ s.frame_count + 1 = BASELINE_FRAMES ∧
        (step u s i).1.frame_count = BASELINE_FRAMES ∧
        b = (if calibVals s ear = [] then FALLBACK_BASELINE
             else median (calibVals s ear))) :=
  ⟨fun u L => run_reachInv u L initState reachInv_init,
   fun u s L b hinv hb => run_baseline_stable u L s b hinv hb,
   step_baseline_set⟩

/-- Witness for C4 at concrete inputs: a state with a set baseline keeps it
across a further frame, and a state with counter 49 sets the baseline to the
median of its single valid sample on the next face frame. -/
theorem C4_baseline_once_witness :
    (run 3
      { baseline_vals := [], frame_count := 50, baseline_ear := some (1/4),
        ear_history := [], eye_closed_start := none, last_eye_alert_time := 0,
        phone_detected_frames := 0, phone_event_start := none,
        last_phone_alert_time := 0 }
      [{ t := 10, faceEar := some (1/2), phone := false }]).1.baseline_ear
      = some (1/4) ∧
    ∃ ear, ({ t := 10, faceEar := some (1/10), phone := false } : FrameInput).faceEar
        = some ear ∧
      ({ baseline_vals := [], frame_count := 49, baseline_ear := none,
         ear_history := [], eye_closed_start := none, last_eye_alert_time := 0,
         phone_detected_frames := 0, phone_event_start := none,
         last_phone_alert_time := 0 } : MonState).frame_count + 1 = BASELINE_FRAMES ∧
      (step 3
        { baseline_vals := [], frame_count := 49, baseline_ear := none,
          ear_history := [], eye_closed_start := none, last_eye_alert_time := 0,
          phone_detected_frames := 0, phone_event_start := none,
          last_phone_alert_time := 0 }
        { t := 10, faceEar := some (1/10), phone := false }).1.frame_count
        = BASELINE_FRAMES ∧
      (1/10 : ℚ) = (if calibVals
          { baseline_vals := [], frame_count := 49, baseline_ear := none,
            ear_history := [], eye_closed_start := none, last_eye_alert_time := 0,
            phone_detected_frames := 0, phone_event_start := none,
            last_phone_alert_time := 0 } ear = [] then FALLBACK_BASELINE
        else median (calibVals
          { baseline_vals := [], frame_count := 49, baseline_ear := none,
            ear_history := [], eye_closed_start := none, last_eye_alert_time := 0,
            phone_detected_frames := 0, phone_event_start := none,
            last_phone_alert_time := 0 } ear)) := by
  constructor
  · refine C4_baseline_once.2.1 3 _ _ (1/4) ⟨?_, ?_, ?_, ?_⟩ rfl
    · norm_num [BASELINE_FRAMES]
    · simp [BASELINE_FRAMES]
    · intro b hb
      simp only [Option.some.injEq] at hb
      subst hb
      norm_num
    · intro x hx
      cases hx
  · refine C4_baseline_once.2.2 3 _ _ (1/10) rfl ?_
    norm_num [step, eyeUpdate, phoneUpdate, phoneConfirm, phoneEmit, phoneReset,
      eyePredB, eyeBase, smoothOf, thresholdOf, calibStep, calibVals,
      smoothUpdate, listMean, dynamicThreshold, median, sortList, sortedInsert,
      MIN_PHONE_FRAMES, PHONE_ALERT_COOLDOWN, EAR_SMOOTH_WINDOW, BASELINE_FRAMES,
      FALLBACK_THRESHOLD, FALLBACK_BASELINE, EAR_DYNAMIC_MULTIPLIER,
      EYE_ALERT_COOLDOWN]

/-- C5: on a qualifying frame of a confirmed phone candidate (counter at or
past the threshold after its increment, candidate start set) for which the
phone cooldown has elapsed, exactly one phone_detected event is emitted with
duration now minus the candidate start, the gate is moved to now, the candidate
start is reset to now, and the counter keeps growing — so the post-state is
again a confirmed candidate whose start is now, ready to emit again one
cooldown later. -/
theorem C5_phone_cooldown_chaining (u : ℚ) (s : MonState) (i : FrameInput) (p : ℚ)
    (hph : i.phone = true)
    (hge : MIN_PHONE_FRAMES ≤ s.phone_detected_frames + 1)
    (hst : s.phone_event_start = some p)
    (hcool : PHONE_ALERT_COOLDOWN ≤ i.t - s.last_phone_alert_time) :
    phoneEvents (step u s i).2
      = [{ etype := EvType.phone_detected, time := i.t, duration := i.t - p }] ∧
    (step u s i).1.last_phone_alert_time = i.t ∧
    (step u s i).1.phone_event_start = some i.t ∧
    (step u s i).1.phone_detected_frames = s.phone_detected_frames + 1 := by
  obtain ⟨hev, hc, hs2, hl⟩ := step_phone_emit u s i hph hge hcool
  rw [hst] at hev
  exact ⟨hev, hl, hs2, hc⟩

/-- Witness for C5 at a concrete input: a confirmed candidate started at t = 2
with gate at 3 emits at t = 10 with duration 8, and the post-state has start
and gate at 10. -/
theorem C5_phone_cooldown_chaining_witness :
    phoneEvents (step 3
      { baseline_vals := [], frame_count := 0, baseline_ear := none,
        ear_history := [], eye_closed_start := none, last_eye_alert_time := 0,
        phone_detected_frames := 4, phone_event_start := some 2,
        last_phone_alert_time := 3 }
      { t := 10, faceEar := none, phone := true }).2
      = [{ etype := EvType.phone_detected, time := 10, duration := 8 }] ∧
    (step 3
      { baseline_vals := [], frame_count := 0, baseline_ear := none,
        ear_history := [], eye_closed_start := none, last_eye_alert_time := 0,
        phone_detected_frames := 4, phone_event_start := some 2,
        last_phone_alert_time := 3 }
      { t := 10, faceEar := none, phone := true }).1.last_phone_alert_time = 10 := by
  obtain ⟨h1, h2, h3, h4⟩ := C5_phone_cooldown_chaining 3
    { baseline_vals := [], frame_count := 0, baseline_ear := none,
      ear_history := [], eye_closed_start := none, last_eye_alert_time := 0,
      phone_detected_frames := 4, phone_event_start := some 2,
      last_phone_alert_time := 3 }
    { t := 10, faceEar := none, phone := true } 2 rfl (by norm_num [MIN_PHONE_FRAMES])
    rfl (by norm_num [PHONE_ALERT_COOLDOWN])
  refine ⟨?_, h2⟩
  rw [h1]
  norm_num

/-- C6 counterexample: the claim as stated says the finalized
distraction_duration equals the sum of the event durations; the code stores
int(sum(...)), so a session with a single event of duration 1.5 s is finalized
with distraction_duration 1, not 1.5. -/
theorem C6_session_finalize_counterexample :
    ¬ (((finalizeSession
        { start_time := 0, end_time := none, total_duration := 0,
          focus_duration := 0, distraction_duration := 0, is_active := true }
        100
        [{ etype := EvType.eye_closed, time := 50, duration := 3/2 }]
      ).distraction_duration : ℚ)
      = ([({ etype := EvType.eye_closed, time := 50, duration := 3/2 } : EmEvent)].map
          EmEvent.duration).sum) := by
  have ht : Int.tdiv 3 2 = 1 := by decide
  norm_num [finalizeSession, ratTrunc]
  rw [ht]
  norm_num

/-- C6 (amended): when monitoring stops, an active session is finalized exactly
once: end time is set to now, total_duration is the whole seconds (truncation
toward zero, as Python int()) of end minus start, distraction_duration is the
whole seconds of the plain sum of all recorded event durations (additively, no
weighting or overlap resolution), focus_duration is max 0 of their difference;
an inactive session is untouched, so finalizing twice equals finalizing
once. -/
theorem C6_session_finalize :
    (∀ (s : SessionRec) (now : ℚ) (evs : List EmEvent), s.is_active = true →
      (finalizeSession s now evs).end_time = some now ∧
      (finalizeSession s now evs).is_active = false ∧
      (finalizeSession s now evs).start_time = s.start_time ∧
      (finalizeSession s now evs).total_duration = ratTrunc (now - s.start_time) ∧
      (finalizeSession s now evs).distraction_duration
        = ratTrunc (evs.map EmEvent.duration).sum ∧
      (finalizeSession s now evs).focus_duration
        = max 0 (ratTrunc (now - s.start_time)
            - ratTrunc (evs.map EmEvent.duration).sum)) ∧
    (∀ (s : SessionRec) (now : ℚ) (evs : List EmEvent), s.is_active = false →
      finalizeSession s now evs = s) ∧
    (∀ (s : SessionRec) (now now2 : ℚ) (evs evs2 : List EmEvent),
      finalizeSession (finalizeSession s now evs) now2 evs2
        = finalizeSession s now evs) := by
  refine ⟨?_, ?_, ?_⟩
  · intro s now evs h
    rw [finalizeSession, if_pos h]
    exact ⟨rfl, rfl, rfl, rfl, rfl, rfl⟩
  · intro s now evs h
    rw [finalizeSession, if_neg (by rw [h]; exact Bool.false_ne_true)]
  · intro s now now2 evs evs2
    by_cases h : s.is_active = true
    · have h1 : (finalizeSession s now evs).is_active = false := by
        rw [finalizeSession, if_pos h]
      rw [finalizeSession, if_neg (by rw [h1]; exact Bool.false_ne_true)]
    · have h0 : s.is_active = false := by
        cases hb : s.is_active
        · rfl
        · exact absurd hb h
      have h1 : finalizeSession s now evs = s := by
        rw [finalizeSession, if_neg (by rw [h0]; exact Bool.false_ne_true)]
      rw [h1, finalizeSession, if_neg (by rw [h0]; exact Bool.false_ne_true)]

/-- Witness for C6 at a concrete input: finalizing an active session started at
0 at time 100 with no events yields end 100, total 100, distraction 0, focus
100. -/
theorem C6_session_finalize_witness :
    (finalizeSession
      { start_time := 0, end_time := none, total_duration := 0,
        focus_duration := 0, distraction_duration := 0, is_active := true }
      100 []).end_time = some 100 ∧
    (finalizeSession
      { start_time := 0, end_time := none, total_duration := 0,
        focus_duration := 0, distraction_duration := 0, is_active := true }
      100 []).is_active = false := by
  obtain ⟨h1, h2, _, _, _, _⟩ := C6_session_finalize.1
    { start_time := 0, end_time := none, total_duration := 0,
      focus_duration := 0, distraction_duration := 0, is_active := true }
    100 [] rfl
  exact ⟨h1, h2⟩

/-- C7: on a frame confirming an eye closure (predicate holds, timer set,
elapsed at least the per-user closure duration) that passes the eye cooldown
gate, exactly one eye_closed event is emitted with duration now minus the
timer, the gate moves to now, and the timer is left unchanged (not reset); on
the same confirmation when the gate blocks, nothing is emitted and both the
timer and the gate are unchanged — so re-emission while the closure persists is
suppressed solely by the cooldown gate. -/
theorem C7_eye_emit_keeps_state (u : ℚ) (s : MonState) (i : FrameInput)
    (ear st : ℚ) (hf : i.faceEar = some ear) (hp : eyePredB s ear = true)
    (h0 : s.eye_closed_start = some st) (hlong : u ≤ i.t - st) :
    (EYE_ALERT_COOLDOWN ≤ i.t - s.last_eye_alert_time →
      eyeEvents (step u s i).2
        = [{ etype := EvType.eye_closed, time := i.t, duration := i.t - st }] ∧
      (step u s i).1.eye_closed_start = some st ∧
      (step u s i).1.last_eye_alert_time = i.t) ∧
    (¬ EYE_ALERT_COOLDOWN ≤ i.t - s.last_eye_alert_time →
      eyeEvents (step u s i).2 = [] ∧
      (step u s i).1.eye_closed_start = some st ∧
      (step u s i).1.last_eye_alert_time = s.last_eye_alert_time) :=
  ⟨fun hcool => step_eye_emit u s i ear st hf hp h0 hlong hcool,
   fun hcool => step_eye_blocked u s i ear st hf hp h0 hlong hcool⟩

/-- Witness for C7 at a concrete input: closure duration 3 s, timer started at
t = 2, frame at t = 10 with EAR 0.1 (below the 0.22 fallback threshold), gate
at 0: one event of duration 8 is emitted and the timer stays at 2. -/
theorem C7_eye_emit_keeps_state_witness :
    eyeEvents (step 3
      { baseline_vals := [], frame_count := 0, baseline_ear := none,
        ear_history := [], eye_closed_start := some 2, last_eye_alert_time := 0,
        phone_detected_frames := 0, phone_event_start := none,
        last_phone_alert_time := 0 }
      { t := 10, faceEar := some (1/10), phone := false }).2
      = [{ etype := EvType.eye_closed, time := 10, duration := 8 }] ∧
    (step 3
      { baseline_vals := [], frame_count := 0, baseline_ear := none,
        ear_history := [], eye_closed_start := some 2, last_eye_alert_time := 0,
        phone_detected_frames := 0, phone_event_start := none,
        last_phone_alert_time := 0 }
      { t := 10, faceEar := some (1/10), phone := false }).1.eye_closed_start
      = some 2 := by
  obtain ⟨h1, h2, h3⟩ := (C7_eye_emit_keeps_state 3
    { baseline_vals := [], frame_count := 0, baseline_ear := none,
      ear_history := [], eye_closed_start := some 2, last_eye_alert_time := 0,
      phone_detected_frames := 0, phone_event_start := none,
      last_phone_alert_time := 0 }
    { t := 10, faceEar := some (1/10), phone := false } (1/10) 2 rfl
    (by norm_num [eyePredB, smoothOf, thresholdOf, calibStep, calibVals,
      smoothUpdate, listMean, dynamicThreshold, BASELINE_FRAMES,
      EAR_SMOOTH_WINDOW, FALLBACK_THRESHOLD, FALLBACK_BASELINE,
      EAR_DYNAMIC_MULTIPLIER, median, sortList, sortedInsert])
    rfl (by norm_num)).1 (by norm_num [EYE_ALERT_COOLDOWN])
  refine ⟨?_, h2⟩
  rw [h1]
  norm_num

/-- C8: on every face frame of every execution from the initial state, the
dynamic threshold used by the closure predicate is the fixed fallback 0.22
while the baseline is still unset after this frame's calibration update, and is
baseline times the 0.7 multiplier once the baseline is set (the baseline of a
reachable state is positive, so the source's truthiness test never falls back
spuriously); moreover detection is never blocked waiting for calibration: even
with the baseline unset, a confirmed closure that passes the cooldown gate
emits its event. -/
theorem C8_threshold_selection (u : ℚ) (L : List FrameInput) (i : FrameInput)
    (ear : ℚ) (hf : i.faceEar = some ear) :
    ((calibStep (run u initState L).1 ear).baseline_ear = none →
      thresholdOf (run u initState L).1 ear = FALLBACK_THRESHOLD) ∧
    (∀ b, (calibStep (run u initState L).1 ear).baseline_ear = some b →
      thresholdOf (run u initState L).1 ear = b * EAR_DYNAMIC_MULTIPLIER) ∧
    ((run u initState L).1.baseline_ear = none → ∀ st,
      (run u initState L).1.eye_closed_start = some st →
      eyePredB (run u initState L).1 ear = true → u ≤ i.t - st →
      EYE_ALERT_COOLDOWN ≤ i.t - (run u initState L).1.last_eye_alert_time →
      eyeEvents (step u (run u initState L).1 i).2
        = [{ etype := EvType.eye_closed, time := i.t, duration := i.t - st }]) := by
  have hinv : ReachInv (calibStep (run u initState L).1 ear) :=
    calibStep_reachInv ear (run_reachInv u L initState reachInv_init)
  obtain ⟨hnone, hsome⟩ := thresholdOf_cases (run u initState L).1 ear hinv.2.2.1
  refine ⟨hnone, hsome, ?_⟩
  intro _ st h0 hp hlong hcool
  exact (step_eye_emit u (run u initState L).1 i ear st hf hp h0 hlong hcool).1

/-- Witness for C8 at a concrete input: on the very first frame of a session
(baseline still unset after the calibration update), the threshold used is the
fallback 0.22. -/
theorem C8_threshold_selection_witness :
    thresholdOf (run 3 initState []).1 (1/10) = FALLBACK_THRESHOLD := by
  refine (C8_threshold_selection 3 []
    { t := 10, faceEar := some (1/10), phone := false } (1/10) rfl).1 ?_
  norm_num [run, calibStep, calibVals, initState, BASELINE_FRAMES]

/-- C9: start_monitoring rejects exactly when no user is logged in, monitoring
is already active, or the camera cannot be opened; on every rejection the whole
control state (including the worker flag) is unchanged; on success the active
flag is set, the worker is started and the camera handle stored;
stop_monitoring always reports success and is idempotent on the control
state. -/
theorem C9_start_stop (st : ApiState) (c : Bool) :
    ((startMonitoring st c).2 ≠ StartResult.ok ↔
      (st.current_user = none ∨ st.monitoring_active = true ∨ c = false)) ∧
    ((startMonitoring st c).2 ≠ StartResult.ok → (startMonitoring st c).1 = st) ∧
    ((startMonitoring st c).2 = StartResult.ok →
      (startMonitoring st c).1.monitoring_active = true ∧
      (startMonitoring st c).1.worker_running = true ∧
      (startMonitoring st c).1.camera = some ()) ∧
    (stopMonitoring st).2 = true ∧
    stopMonitoring (stopMonitoring st).1 = stopMonitoring st := by
  refine ⟨?_, ?_, ?_, rfl, rfl⟩
  · unfold startMonitoring
    by_cases h1 : st.current_user = none
    · simp [h1]
    · by_cases h2 : st.monitoring_active = true
      · simp [h1, h2]
      · cases c with
        | false => simp [h1, h2]
        | true => simp [h1, h2]
  · unfold startMonitoring
    by_cases h1 : st.current_user = none
    · simp [h1]
    · by_cases h2 : st.monitoring_active = true
      · simp [h1, h2]
      · cases c with
        | false => simp [h1, h2]
        | true => simp [h1, h2]
  · unfold startMonitoring
    by_cases h1 : st.current_user = none
    · simp [h1]
    · by_cases h2 : st.monitoring_active = true
      · simp [h1, h2]
      · cases c with
        | false => simp [h1, h2]
        | true =>
          simp only [h1, h2, if_false, Bool.not_true, if_true]
          intro _
          exact ⟨rfl, rfl, rfl⟩

/-- Witness for C9 at a concrete input: with a logged-in user, inactive
monitoring and an available camera, start succeeds and sets the active and
worker flags. -/
theorem C9_start_stop_witness :
    (startMonitoring
      { monitoring_active := false, current_user := some 1, camera := none,
        worker_running := false } true).1.monitoring_active = true ∧
    (startMonitoring
      { monitoring_active := false, current_user := some 1, camera := none,
        worker_running := false } true).1.worker_running = true ∧
    (startMonitoring
      { monitoring_active := false, current_user := some 1, camera := none,
        worker_running := false } true).1.camera = some () :=
  (C9_start_stop
    { monitoring_active := false, current_user := some 1, camera := none,
      worker_running := false } true).2.2.1 rfl

/-- C10: the loop-local state starts with the phone cooldown gate at 0, no
candidate interval and a zero counter; and for any execution from the initial
state, all of whose frame times are at least the cooldown (as time.time()
values are), on the first frame on which the consecutive-positive counter
reaches MIN_PHONE_FRAMES (no phone event emitted so far), a phone_detected
event is emitted immediately with duration exactly 0, with the candidate start
set to that frame's time and the gate moved to it. -/
theorem C10_first_confirmation_emits (u : ℚ) (L : List FrameInput) (i : FrameInput)
    (hts : ∀ j ∈ L, PHONE_ALERT_COOLDOWN ≤ j.t)
    (hnoev : phoneEvents (run u initState L).2 = [])
    (hph : i.phone = true) (hti : PHONE_ALERT_COOLDOWN ≤ i.t)
    (hreach : MIN_PHONE_FRAMES ≤ (run u initState L).1.phone_detected_frames + 1) :
    (initState.last_phone_alert_time = 0 ∧ initState.phone_event_start = none ∧
      initState.phone_detected_frames = 0) ∧
    phoneEvents (step u (run u initState L).1 i).2
      = [{ etype := EvType.phone_detected, time := i.t, duration := 0 }] ∧
    (step u (run u initState L).1 i).1.phone_detected_frames = MIN_PHONE_FRAMES ∧
    (step u (run u initState L).1 i).1.phone_event_start = some i.t ∧
    (step u (run u initState L).1 i).1.last_phone_alert_time = i.t := by
  obtain ⟨hl, hs, hcnt⟩ := run_freshPhone u L initState hts
    ⟨rfl, rfl, by norm_num [initState, MIN_PHONE_FRAMES]⟩ hnoev
  have hcool : PHONE_ALERT_COOLDOWN ≤ i.t - (run u initState L).1.last_phone_alert_time := by
    rw [hl]
    simpa using hti
  obtain ⟨hev, hc, hs2, hl2⟩ := step_phone_emit u (run u initState L).1 i hph hreach hcool
  rw [hs] at hev
  refine ⟨⟨rfl, rfl, rfl⟩, ?_, ?_, hs2, hl2⟩
  · rw [hev]
    simp
  · rw [hc]
    rw [MIN_PHONE_FRAMES] at hreach hcnt ⊢
    omega

/-- Witness for C10 at a concrete input: three qualifying frames at t = 10, 11,
12 then a fourth at t = 13 emit the first phone_detected event at t = 13 with
duration 0. -/
theorem C10_first_confirmation_emits_witness :
    phoneEvents (step 3 (run 3 initState
      [{ t := 10, faceEar := none, phone := true },
       { t := 11, faceEar := none, phone := true },
       { t := 12, faceEar := none, phone := true }]).1
      { t := 13, faceEar := none, phone := true }).2
      = [{ etype := EvType.phone_detected, time := 13, duration := 0 }] := by
  refine (C10_first_confirmation_emits 3 _
    { t := 13, faceEar := none, phone := true } ?_ ?_ rfl ?_ ?_).2.1
  · intro j hj
    fin_cases hj <;> norm_num [PHONE_ALERT_COOLDOWN]
  · norm_num [run, step, eyeUpdate, phoneUpdate, phoneConfirm, phoneEmit,
      phoneReset, phoneEvents, isPhoneEvent, initState, MIN_PHONE_FRAMES,
      PHONE_ALERT_COOLDOWN]
  · norm_num [PHONE_ALERT_COOLDOWN]
  · norm_num [run, step, eyeUpdate, phoneUpdate, phoneConfirm, phoneEmit,
      phoneReset, initState, MIN_PHONE_FRAMES, PHONE_ALERT_COOLDOWN]
